import Mathlib

/-!
Verification of the dimension/domain-reshaping subsystem of pysteps
(`pysteps/utils/dimension.py`) against its natural-language specification.

The embedding models numpy arrays as a (shape, flat-data) pair: `shape` is the
list of extents and `f` maps a C-order (row-major) linear offset to the value
stored there.  This matches numpy semantics exactly for the operations the
module uses: `reshape` keeps the linear data and changes only the shape,
`swapaxes` permutes the multi-index, `squeeze` removes extent-1 axes (which
leaves the C-order linearisation untouched), and basic slicing re-indexes.
Values are exact rationals plus a NaN marker (floats are modelled exactly).
Fallible Python code (raised exceptions) is modelled with `Except`.
-/

/-- A numpy scalar: either NaN or an exact numeric value. -/
inductive Val where
  | nan : Val
  | num : ℚ → Val
deriving DecidableEq, Repr

instance : Inhabited Val := ⟨Val.num 0⟩

/-- Is the value NaN? -/
def Val.isNan : Val → Bool
  | Val.nan => true
  | Val.num _ => false

/-- Numeric content of a value (0 for NaN; only used under a non-NaN guard). -/
def Val.toQ : Val → ℚ
  | Val.nan => 0
  | Val.num q => q

/-- The non-NaN entries of a list of values. -/
def numsOf (l : List Val) : List ℚ :=
  l.filterMap (fun v => match v with | Val.nan => none | Val.num q => some q)

/-- numpy `sum` over a 1-d slice: NaN propagates, empty sum is 0. -/
def npSum (l : List Val) : Val :=
  if l.any Val.isNan then Val.nan else Val.num ((l.map Val.toQ).sum)

/-- numpy `mean` over a 1-d slice: NaN propagates, empty mean is NaN. -/
def npMean (l : List Val) : Val :=
  if l.length = 0 then Val.nan
  else if l.any Val.isNan then Val.nan
  else Val.num ((l.map Val.toQ).sum / (l.length : ℚ))

/-- numpy `nansum`: NaNs are skipped; an all-NaN (or empty) slice sums to 0. -/
def npNanSum (l : List Val) : Val :=
  Val.num ((numsOf l).sum)

/-- numpy `nanmean`: NaNs are skipped; an all-NaN (or empty) slice gives NaN. -/
def npNanMean (l : List Val) : Val :=
  if (numsOf l).length = 0 then Val.nan
  else Val.num ((numsOf l).sum / ((numsOf l).length : ℚ))

/-- ASCII lower-casing of one character (method names are ASCII, so this is
Python `str.lower` on them). -/
def lowerChar (c : Char) : Char :=
  if c.isUpper then Char.ofNat (c.toNat + 32) else c

/-- ASCII `method.lower()`. -/
def strLower (s : String) : String := String.mk (s.data.map lowerChar)

/-- The reduction dispatched on `method.lower()` in `aggregate_fields`
(`dimension.py` lines 190-199); `none` models the `unknown method` error. -/
def reduceOp (method : String) : Option (List Val → Val) :=
  if strLower method = ("sum") then some npSum
  else if strLower method = ("mean") then some npMean
  else if strLower method = ("nansum") then some npNanSum
  else if strLower method = ("nanmean") then some npNanMean
  else none

/-- A numpy ndarray: list of extents plus C-order linear data.  `f` is total;
only offsets below the element count are meaningful. -/
structure NDArray where
  shape : List ℕ
  f : ℕ → Val

/-- Number of elements (product of the extents). -/
def NDArray.numel (A : NDArray) : ℕ := A.shape.prod

/-- C-order linearisation of a multi-index. -/
def flatten : List ℕ → List ℕ → ℕ
  | _ :: ss, i :: is => i * ss.prod + flatten ss is
  | _, _ => 0

/-- Inverse of `flatten`: recover the multi-index of a linear offset. -/
def unflatten : List ℕ → ℕ → List ℕ
  | [], _ => []
  | _ :: ss, lin => (lin / ss.prod) :: unflatten ss (lin % ss.prod)

/-- `idx` is a well-formed multi-index for shape `s`. -/
def validIdx (s idx : List ℕ) : Prop :=
  idx.length = s.length ∧ ∀ i < s.length, idx.getD i 0 < s.getD i 0

instance (s idx : List ℕ) : Decidable (validIdx s idx) := by
  unfold validIdx; infer_instance

/-- Entry of an array at a multi-index. -/
def NDArray.get (A : NDArray) (idx : List ℕ) : Val := A.f (flatten A.shape idx)

/-- Exchange positions `a` and `0` of a list (the shape/index action of
numpy `swapaxes(axis, 0)`). -/
def swapL (a : ℕ) (l : List ℕ) : List ℕ :=
  (l.set a (l.getD 0 0)).set 0 (l.getD a 0)

/-- numpy `R.swapaxes(a, 0)` in the linear-offset model. -/
def swapaxes (a : ℕ) (A : NDArray) : NDArray :=
  ⟨swapL a A.shape,
   fun lin => A.f (flatten A.shape (swapL a (unflatten (swapL a A.shape) lin)))⟩

/-- The array built by the success path of `aggregate_fields`
(`dimension.py` 186-202): swap `axis` to the front, reshape to `(N, -1)`
(the column count `c` is the inferred `-1` extent), reshape to
`(N/window_size, window_size, c)`, reduce the middle axis with `op`, reshape
back with the leading extent replaced by `N/window_size`, and swap the axes
back.  Reshapes keep the C-order flat data, so here they are shape changes
plus the div/mod block arithmetic of the middle-axis reduction. -/
def aggOut (R : NDArray) (window_size axis : ℕ) (op : List Val → Val) : NDArray :=
  let N := R.shape.getD axis 0
  let Rs := swapaxes axis R
  let c := Rs.numel / N
  swapaxes axis
    ⟨Rs.shape.set 0 (N / window_size),
     fun lin => op ((List.range window_size).map
       (fun t => Rs.f ((lin / c * window_size + t) * c + lin % c)))⟩

/-- `aggregate_fields(R, window_size, axis, method)` (`dimension.py` 158-204).
Python raises `IndexError` on `R.shape[axis]` for an out-of-range axis,
`ZeroDivisionError` on `N % 0`, and numpy cannot infer `-1` in
`reshape((N, -1))` when `N = 0` and the array is empty. -/
def aggregate_fields (R : NDArray) (window_size : ℕ) (axis : ℕ)
    (method : String) : Except String NDArray :=
  if axis < R.shape.length then
    let N := R.shape.getD axis 0
    if window_size = 0 then Except.error ("ZeroDivisionError")
    else if N % window_size ≠ 0 then
      Except.error ("window_size " ++ toString window_size ++
        (" does not equally split R.shape[axis] ") ++ toString N)
    else if N = 0 then
      Except.error ("cannot reshape array of size 0")
    else
      match reduceOp method with
      | some op => Except.ok (aggOut R window_size axis op)
      | none => Except.error ("unknown method " ++ method)
  else Except.error ("IndexError: tuple index out of range")

/-- Build a concrete array from a list of rational entries (row-major). -/
def mkArr (shape : List ℕ) (data : List ℚ) : NDArray :=
  ⟨shape, fun i => Val.num (data.getD i 0)⟩

/-- Shape of a successful result (`[]` on error). -/
def exShape (e : Except String NDArray) : List ℕ :=
  match e with
  | Except.ok A => A.shape
  | Except.error _ => []

/-- Entry of a successful result at a multi-index (`none` on error). -/
def exGet (e : Except String NDArray) (idx : List ℕ) : Option Val :=
  match e with
  | Except.ok A => some (A.get idx)
  | Except.error _ => none

/-- Did the call succeed? -/
def exOk {α : Type} (e : Except String α) : Bool :=
  match e with
  | Except.ok _ => true
  | Except.error _ => false

/-- The metadata dictionary, restricted to the keys this module reads or
writes.  Timestamps are epoch seconds (Python `datetime` differences are
modelled exactly); `none` models an absent key. -/
structure Metadata where
  unit : String
  timestamps : List ℤ
  leadtimes : Option (List ℚ)
  accutime : Option ℚ
  xpixelsize : ℚ
  ypixelsize : ℚ
  x1 : ℚ
  x2 : ℚ
  y1 : ℚ
  y2 : ℚ
  zerovalue : ℚ
  orig_domain : Option (ℕ × ℕ)
  square_method : Option String
deriving DecidableEq

/-- Python `int(q)`: truncation toward zero. -/
def intTrunc (q : ℚ) : ℤ := if 0 ≤ q then ⌊q⌋ else -⌊-q⌋

/-- Python float `%`: `a - b * floor(a / b)` (sign of the divisor; only used
with `b ≠ 0`, division by zero is guarded separately). -/
def qmod (a b : ℚ) : ℚ := a - b * ⌊a / b⌋

/-- Python `l[start::step]` for `step ≥ 1` (the only form the source uses). -/
def pySliceStride {α : Type} (l : List α) (start step : ℕ) : List α :=
  (List.range l.length).filterMap
    (fun i => if start ≤ i ∧ (i - start) % step = 0 then l[i]? else none)

/-- The sampling interval in minutes inferred at `dimension.py` line 58:
`(timestamps[1] - timestamps[0]).seconds/60`.  A Python `timedelta` of `d`
seconds has `.seconds = d mod 86400` (normalised, non-negative). -/
def deltaOf (md : Metadata) : ℚ :=
  (((md.timestamps.getD 1 0 - md.timestamps.getD 0 0).emod 86400 : ℤ) : ℚ) / 60

/-- Time axis selected from the rank (`dimension.py` lines 46-49). -/
def timeAxis (R : NDArray) : ℕ := if R.shape.length = 3 then 0 else 1

/-- First spatial axis selected from the rank (`dimension.py` lines 126-128). -/
def spaceAxisY (R : NDArray) : ℕ := if R.shape.length = 3 then 1 else 2

/-- `aggregate_fields_time(R, metadata, time_window_min)`
(`dimension.py` 5-81).  A negative `nframes` always ends in a numpy
`negative dimensions` error inside `aggregate_fields`, modelled here by the
explicit guard; `nframes = 0` reaches the `ZeroDivisionError` of
`aggregate_fields` itself. -/
def aggregate_fields_time (R : NDArray) (md : Metadata) (time_window_min : Option ℚ) :
    Except String (NDArray × Metadata) :=
  match time_window_min with
  | none => Except.ok (R, md)
  | some tw =>
    if R.shape.length < 3 then Except.error ("The number of dimension must be > 2")
    else if 4 < R.shape.length then Except.error ("The number of dimension must be <= 4")
    else
      let axis := timeAxis R
      if R.shape.getD axis 0 ≠ md.timestamps.length then
        Except.error ("The list of timestamps has a different length than the frames of R")
      else if md.timestamps.length < 2 then
        Except.error ("IndexError: list index out of range")
      else
        let delta := deltaOf md
        if delta = tw then Except.ok (R, md)
        else if tw = 0 then Except.error ("ZeroDivisionError")
        else if qmod ((R.shape.getD axis 0 : ℚ) * delta) tw ≠ 0 then
          Except.error ("time_window_size does not equally split R")
        else if delta = 0 then Except.error ("ZeroDivisionError")
        else
          let nframes := intTrunc (tw / delta)
          match (if md.unit = ("mm/h") then some ("mean")
                 else if md.unit = ("mm") then some ("sum") else none) with
          | none => Except.error ("can only aggregate units of mm/h or mm not " ++ md.unit)
          | some method =>
            if nframes < 0 then Except.error ("negative dimensions are not allowed")
            else
              (aggregate_fields R nframes.toNat axis method).map (fun Ragg =>
                (Ragg,
                 { md with
                   accutime := some tw,
                   timestamps := pySliceStride md.timestamps (nframes.toNat - 1) nframes.toNat,
                   leadtimes := md.leadtimes.map
                     (fun lt => pySliceStride lt (nframes.toNat - 1) nframes.toNat) }))

/-- `aggregate_fields_space(R, metadata, space_window_m)`
(`dimension.py` 83-156). -/
def aggregate_fields_space (R : NDArray) (md : Metadata) (space_window_m : Option ℚ) :
    Except String (NDArray × Metadata) :=
  match space_window_m with
  | none => Except.ok (R, md)
  | some sw =>
    if R.shape.length < 3 then Except.error ("The number of dimension must be > 2")
    else if 4 < R.shape.length then Except.error ("The number of dimension must be <= 4")
    else
      let ay := spaceAxisY R
      let ax := ay + 1
      if md.ypixelsize = sw ∧ md.xpixelsize = sw then Except.ok (R, md)
      else if sw = 0 then Except.error ("ZeroDivisionError")
      else if qmod ((R.shape.getD ay 0 : ℚ) * md.ypixelsize) sw ≠ 0 ∨
              qmod ((R.shape.getD ax 0 : ℚ) * md.xpixelsize) sw ≠ 0 then
        Except.error ("space_window_m does not equally split R")
      else if md.ypixelsize = 0 ∨ md.xpixelsize = 0 then
        Except.error ("ZeroDivisionError")
      else
        let nfy := intTrunc (sw / md.ypixelsize)
        let nfx := intTrunc (sw / md.xpixelsize)
        match (if md.unit = ("mm/h") then some ("mean")
               else if md.unit = ("mm") then some ("sum") else none) with
        | none => Except.error ("can only aggregate units of mm/h or mm not " ++ md.unit)
        | some method =>
          if nfy < 0 ∨ nfx < 0 then Except.error ("negative dimensions are not allowed")
          else
            (aggregate_fields R nfy.toNat ay method).bind (fun R1 =>
              (aggregate_fields R1 nfx.toNat ax method).map (fun R2 =>
                (R2, { md with ypixelsize := sw, xpixelsize := sw })))

/-- Field component of a successful `(field, metadata)` result. -/
def pairField (e : Except String (NDArray × Metadata)) : Option NDArray :=
  match e with
  | Except.ok p => some p.1
  | Except.error _ => none

/-- Metadata component of a successful `(field, metadata)` result. -/
def pairMeta (e : Except String (NDArray × Metadata)) : Option Metadata :=
  match e with
  | Except.ok p => some p.2
  | Except.error _ => none

/-- The validation hypotheses under which a call of `aggregate_fields_time`
with window `tw` reaches the unit dispatch at `dimension.py` line 67: rank in
range, timestamps matching the time axis, at least two timestamps, window
different from the sampling interval, nonzero window, the total time span an
exact multiple of the window, nonzero sampling interval. -/
def timePathOK (R : NDArray) (md : Metadata) (tw : ℚ) : Prop :=
  (R.shape.length = 3 ∨ R.shape.length = 4) ∧
  R.shape.getD (timeAxis R) 0 = md.timestamps.length ∧
  2 ≤ md.timestamps.length ∧
  deltaOf md ≠ tw ∧
  tw ≠ 0 ∧
  qmod ((R.shape.getD (timeAxis R) 0 : ℚ) * deltaOf md) tw = 0 ∧
  deltaOf md ≠ 0

/-- The validation hypotheses under which a call of `aggregate_fields_space`
with window `sw` reaches the unit dispatch at `dimension.py` line 143. -/
def spacePathOK (R : NDArray) (md : Metadata) (sw : ℚ) : Prop :=
  (R.shape.length = 3 ∨ R.shape.length = 4) ∧
  ¬(md.ypixelsize = sw ∧ md.xpixelsize = sw) ∧
  sw ≠ 0 ∧
  qmod ((R.shape.getD (spaceAxisY R) 0 : ℚ) * md.ypixelsize) sw = 0 ∧
  qmod ((R.shape.getD (spaceAxisY R + 1) 0 : ℚ) * md.xpixelsize) sw = 0 ∧
  md.ypixelsize ≠ 0 ∧
  md.xpixelsize ≠ 0

/-- `R[None, None, :]` / `R[None, :]` promotion to rank 4
(`dimension.py` 243-246, 313-316, 375-378).  Prepending extent-1 axes keeps
the C-order flat data unchanged. -/
def promote (A : NDArray) : NDArray :=
  if A.shape.length = 2 then ⟨1 :: 1 :: A.shape, A.f⟩
  else if A.shape.length = 3 then ⟨1 :: A.shape, A.f⟩
  else A

/-- numpy `squeeze()`: drop every axis of extent 1.  Removing extent-1 axes
keeps the C-order flat data unchanged. -/
def squeeze (A : NDArray) : NDArray :=
  ⟨A.shape.filter (fun d => d != 1), A.f⟩

/-- numpy two-argument `min` with NaN propagation. -/
def valMin (a b : Val) : Val :=
  match a, b with
  | Val.nan, _ => Val.nan
  | _, Val.nan => Val.nan
  | Val.num p, Val.num q => Val.num (min p q)

/-- numpy `R.min()` over the whole array (callers guard the empty case, on
which numpy raises). -/
def npMin (A : NDArray) : Val :=
  match (List.range A.numel).map A.f with
  | [] => Val.nan
  | v :: vs => vs.foldl valMin v

/-- Python slice-bound normalisation for `l[a:b]` on an axis of extent `L`:
negative indices count from the end, then both bounds clamp to `[0, L]`. -/
def pyStart (L : ℕ) (v : ℤ) : ℕ :=
  if v < 0 then ((L : ℤ) + v).toNat else min v.toNat L

/-- Extent of the Python slice `[a:b]` on an axis of extent `L`. -/
def sliceLen (L : ℕ) (a b : ℤ) : ℕ := pyStart L b - pyStart L a

/-- `dst[:, :, :, a:b] = src` on a rank-4 array whose last axis has extent
`X`; `src` must have the extent of the slice on that axis (numpy would
otherwise fail to broadcast; size-1 broadcasting is not used by the source).
All leading axes collapse into `lin / X` in C order. -/
def write3 (X : ℕ) (a b : ℤ) (dstf srcf : ℕ → Val) : ℕ → Val :=
  fun lin =>
    let st := pyStart X a
    let sp := pyStart X b
    let i3 := lin % X
    if st ≤ i3 ∧ i3 < sp then srcf (lin / X * (sp - st) + (i3 - st)) else dstf lin

/-- `src[:, :, :, a:b]` on a rank-4 array whose last axis has extent `X`. -/
def read3 (X : ℕ) (a b : ℤ) (srcf : ℕ → Val) : ℕ → Val :=
  fun lin =>
    let st := pyStart X a
    let L := sliceLen X a b
    srcf (lin / L * X + (st + lin % L))

/-- `dst[:, :, a:b, :] = src` on a rank-4 array whose last two axes have
extents `Y` (being sliced) and `X` (shared by both sides). -/
def write2 (Y X : ℕ) (a b : ℤ) (dstf srcf : ℕ → Val) : ℕ → Val :=
  fun lin =>
    let st := pyStart Y a
    let sp := pyStart Y b
    let i3 := lin % X
    let i2 := lin / X % Y
    if st ≤ i2 ∧ i2 < sp then
      srcf (lin / (X * Y) * ((sp - st) * X) + (i2 - st) * X + i3)
    else dstf lin

/-- `src[:, :, a:b, :]` on a rank-4 array whose last two axes have extents
`Y` (being sliced) and `X`. -/
def read2 (Y X : ℕ) (a b : ℤ) (srcf : ℕ → Val) : ℕ → Val :=
  fun lin =>
    let st := pyStart Y a
    let L := sliceLen Y a b
    srcf (lin / (X * L) * (Y * X) + (st + lin / X % L) * X + lin % X)

/-- Result of `square_domain`: the source returns a `(field, metadata)` pair
on most paths but only the bare field on the already-square and
shape-already-restored paths (`dimension.py` lines 321 and 386). -/
inductive SqRes where
  | pair : NDArray → Metadata → SqRes
  | bare : NDArray → SqRes

/-- The non-inverse branch of `square_domain` (`dimension.py` 309-369). -/
def square_forward (R : NDArray) (md : Metadata) (method : String) : Except String SqRes :=
  if R.shape.length < 2 then Except.error ("The number of dimension must be > 1")
  else if 4 < R.shape.length then Except.error ("The number of dimension must be <= 4")
  else
    let R4 := promote R
    let n := R4.shape.getD 0 0
    let t := R4.shape.getD 1 0
    let y := R4.shape.getD 2 0
    let x := R4.shape.getD 3 0
    if y = x then Except.ok (SqRes.bare (squeeze R4))
    else if method = ("pad") then
      let D := max y x
      if R4.numel = 0 then
        Except.error ("zero-size array to reduction operation minimum")
      else
        let fill := npMin R4
        if x < D then
          let b := (D - x) / 2
          Except.ok (SqRes.pair
            (squeeze ⟨[n, t, D, D], write3 D (b : ℤ) ((b : ℤ) + (x : ℤ)) (fun _ => fill) R4.f⟩)
            { md with x1 := md.x1 - (b : ℚ) * md.xpixelsize,
                      x2 := md.x2 + (b : ℚ) * md.xpixelsize,
                      orig_domain := some (y, x), square_method := some method })
        else if y < D then
          let b := (D - y) / 2
          Except.ok (SqRes.pair
            (squeeze ⟨[n, t, D, D], write2 D x (b : ℤ) ((b : ℤ) + (y : ℤ)) (fun _ => fill) R4.f⟩)
            { md with y1 := md.y1 - (b : ℚ) * md.ypixelsize,
                      y2 := md.y2 + (b : ℚ) * md.ypixelsize,
                      orig_domain := some (y, x), square_method := some method })
        else
          Except.ok (SqRes.pair (squeeze ⟨[n, t, D, D], fun _ => fill⟩)
            { md with orig_domain := some (y, x), square_method := some method })
    else if method = ("crop") then
      let D := min y x
      if D < x then
        let b := (x - D) / 2
        Except.ok (SqRes.pair
          (squeeze ⟨[n, t, y, sliceLen x (b : ℤ) ((b : ℤ) + (D : ℤ))],
                    read3 x (b : ℤ) ((b : ℤ) + (D : ℤ)) R4.f⟩)
          { md with x1 := md.x1 + (b : ℚ) * md.xpixelsize,
                    x2 := md.x2 - (b : ℚ) * md.xpixelsize,
                    orig_domain := some (y, x), square_method := some method })
      else if D < y then
        let b := (y - D) / 2
        Except.ok (SqRes.pair
          (squeeze ⟨[n, t, sliceLen y (b : ℤ) ((b : ℤ) + (D : ℤ)), x],
                    read2 y x (b : ℤ) ((b : ℤ) + (D : ℤ)) R4.f⟩)
          { md with y1 := md.y1 + (b : ℚ) * md.ypixelsize,
                    y2 := md.y2 - (b : ℚ) * md.ypixelsize,
                    orig_domain := some (y, x), square_method := some method })
      else
        Except.ok (SqRes.pair (squeeze ⟨[n, t, D, D], fun _ => Val.num 0⟩)
          { md with orig_domain := some (y, x), square_method := some method })
    else Except.error ("Unknown type")

/-- The inverse branch of `square_domain` (`dimension.py` 371-418).
`square_method` and `orig_domain` are popped from the metadata; a missing key
is a Python `KeyError`.  The `int(...)` buffers use truncating division on
possibly negative differences, and the slices follow Python normalisation. -/
def square_inverse (R : NDArray) (md : Metadata) : Except String SqRes :=
  if R.shape.length < 2 then Except.error ("The number of dimension must be > 2")
  else if 4 < R.shape.length then Except.error ("The number of dimension must be <= 4")
  else
    match md.square_method with
    | none => Except.error ("KeyError: square_method")
    | some m0 =>
      match md.orig_domain with
      | none => Except.error ("KeyError: orig_domain")
      | some sh =>
        let md0 := { md with square_method := none, orig_domain := none }
        let R4 := promote R
        let n := R4.shape.getD 0 0
        let t := R4.shape.getD 1 0
        let y := R4.shape.getD 2 0
        let x := R4.shape.getD 3 0
        if y = sh.1 ∧ x = sh.2 then Except.ok (SqRes.bare (squeeze R4))
        else if m0 = ("pad") then
          if y = sh.1 then
            let b := Int.tdiv ((x : ℤ) - (sh.2 : ℤ)) 2
            Except.ok (SqRes.pair
              (squeeze ⟨[n, t, y, sliceLen x b (b + (sh.2 : ℤ))],
                        read3 x b (b + (sh.2 : ℤ)) R4.f⟩)
              { md0 with x1 := md0.x1 + (b : ℚ) * md0.xpixelsize,
                         x2 := md0.x2 - (b : ℚ) * md0.xpixelsize })
          else if x = sh.2 then
            let b := Int.tdiv ((y : ℤ) - (sh.1 : ℤ)) 2
            Except.ok (SqRes.pair
              (squeeze ⟨[n, t, sliceLen y b (b + (sh.1 : ℤ)), x],
                        read2 y x b (b + (sh.1 : ℤ)) R4.f⟩)
              { md0 with y1 := md0.y1 + (b : ℚ) * md0.ypixelsize,
                         y2 := md0.y2 - (b : ℚ) * md0.ypixelsize })
          else
            Except.ok (SqRes.pair (squeeze ⟨[n, t, sh.1, sh.2], fun _ => Val.num 0⟩) md0)
        else if m0 = ("crop") then
          if y = sh.1 then
            let b := Int.tdiv ((sh.2 : ℤ) - (x : ℤ)) 2
            Except.ok (SqRes.pair
              (squeeze ⟨[n, t, sh.1, sh.2],
                        write3 sh.2 b (b + (x : ℤ)) (fun _ => Val.num 0) R4.f⟩)
              { md0 with x1 := md0.x1 - (b : ℚ) * md0.xpixelsize,
                         x2 := md0.x2 + (b : ℚ) * md0.xpixelsize })
          else if x = sh.2 then
            let b := Int.tdiv ((sh.1 : ℤ) - (y : ℤ)) 2
            Except.ok (SqRes.pair
              (squeeze ⟨[n, t, sh.1, sh.2],
                        write2 sh.1 x b (b + (y : ℤ)) (fun _ => Val.num 0) R4.f⟩)
              { md0 with y1 := md0.y1 - (b : ℚ) * md0.ypixelsize,
                         y2 := md0.y2 + (b : ℚ) * md0.ypixelsize })
          else
            Except.ok (SqRes.pair (squeeze ⟨[n, t, sh.1, sh.2], fun _ => Val.num 0⟩) md0)
        else
          Except.ok (SqRes.pair (squeeze ⟨[n, t, sh.1, sh.2], fun _ => Val.num 0⟩) md0)

/-- `square_domain(R, metadata, method, inverse)` (`dimension.py` 277-418). -/
def square_domain (R : NDArray) (md : Metadata) (method : String) (inverse : Bool) :
    Except String SqRes :=
  if inverse then square_inverse R md else square_forward R md method

/-- Field of a `square_domain` result, whichever return form it used. -/
def sdField (e : Except String SqRes) : Option NDArray :=
  match e with
  | Except.ok (SqRes.pair F _) => some F
  | Except.ok (SqRes.bare F) => some F
  | Except.error _ => none

/-- Is the result the bare-field return form? -/
def sdBare (e : Except String SqRes) : Bool :=
  match e with
  | Except.ok (SqRes.bare _) => true
  | _ => false

/-- Square then invert, carrying forward the produced metadata (the round
trip of the spec): `none` if either call fails or the first call does not
produce a metadata record to carry forward. -/
def roundTrip (R : NDArray) (md : Metadata) (method : String) : Option NDArray :=
  match square_domain R md method false with
  | Except.ok (SqRes.pair F1 md1) => sdField (square_domain F1 md1 method true)
  | _ => none

/-- Shape of an optional array (`[]` when absent). -/
def optShape (o : Option NDArray) : List ℕ :=
  match o with
  | some A => A.shape
  | none => []

/-- Flat entry of an optional array (NaN when absent). -/
def optF (o : Option NDArray) (lin : ℕ) : Val :=
  match o with
  | some A => A.f lin
  | none => Val.nan

/-- The last two extents (the spatial shape of a field of rank ≥ 2). -/
def lastTwo (l : List ℕ) : List ℕ := l.drop (l.length - 2)

/-- numpy `linspace(a, b, num)` with endpoint (exact rationals). -/
def linspace (a b : ℚ) (num : ℕ) : List ℚ :=
  if num = 0 then []
  else if num = 1 then [a]
  else (List.range num).map (fun i => a + (b - a) * (i : ℚ) / ((num : ℚ) - 1))

/-- `np.where(cond)[0]` on a coordinate list: the indices satisfying the
condition, in increasing order. -/
def whereIdx (p : ℚ → Bool) (l : List ℚ) : List ℕ :=
  (List.range l.length).filter (fun i => p (l.getD i 0))

/-- `adjust_domain(R, metadata, xlim, ylim)` (`dimension.py` 206-275).
The copy step assigns the source block
`R[:, :, idx_y[0]:idx_y[-1], idx_x[0]:idx_x[-1]]` into
`R_[:, :, idx_y_[0]:idx_y_[-1], idx_x_[0]:idx_x_[-1]]` — both upper bounds
exclusive, exactly as the source slices do.  numpy raises if the two blocks
have different extents (size-1 broadcasting is not modelled; no claim
exercises it) and an empty index list is a Python `IndexError`. -/
def adjust_domain (R : NDArray) (md : Metadata)
    (xlim ylim : Option (ℚ × ℚ)) : Except String (NDArray × Metadata) :=
  if xlim = none ∧ ylim = none then Except.ok (R, md)
  else
    let xl := xlim.getD (md.x1, md.x2)
    let yl := ylim.getD (md.y1, md.y2)
    if R.shape.length < 2 then Except.error ("The number of dimension must be > 1")
    else if 4 < R.shape.length then Except.error ("The number of dimension must be <= 4")
    else
      let R4 := promote R
      let n := R4.shape.getD 0 0
      let t := R4.shape.getD 1 0
      let Y := R4.shape.getD 2 0
      let X := R4.shape.getD 3 0
      let xmin := min xl.1 xl.2
      let xmax := max xl.1 xl.2
      let ymin := min yl.1 yl.2
      let ymax := max yl.1 yl.2
      if md.xpixelsize = 0 ∨ md.ypixelsize = 0 then Except.error ("ZeroDivisionError")
      else
        let ndxi := intTrunc ((xmax - xmin) / md.xpixelsize)
        let ndyi := intTrunc ((ymax - ymin) / md.ypixelsize)
        if ndxi < 0 ∨ ndyi < 0 then Except.error ("negative dimensions are not allowed")
        else
          let ndx := ndxi.toNat
          let ndy := ndyi.toNat
          let y_coord := (linspace md.y1 (md.y2 - md.ypixelsize) Y).map
            (fun v => v + md.ypixelsize / 2)
          let x_coord := (linspace md.x1 (md.x2 - md.xpixelsize) X).map
            (fun v => v + md.xpixelsize / 2)
          let y_coordN := (linspace ymin (ymax - md.ypixelsize) ndy).map
            (fun v => v + md.ypixelsize / 2)
          let x_coordN := (linspace xmin (xmax - md.xpixelsize) ndx).map
            (fun v => v + md.xpixelsize / 2)
          let idx_y := whereIdx (fun v => decide (v < ymax) && decide (ymin < v)) y_coord
          let idx_x := whereIdx (fun v => decide (v < xmax) && decide (xmin < v)) x_coord
          let idx_yN := whereIdx (fun v => decide (v < md.y2) && decide (md.y1 < v)) y_coordN
          let idx_xN := whereIdx (fun v => decide (v < md.x2) && decide (md.x1 < v)) x_coordN
          match idx_y.head?, idx_y.getLast?, idx_x.head?, idx_x.getLast?,
                idx_yN.head?, idx_yN.getLast?, idx_xN.head?, idx_xN.getLast? with
          | some iy0, some iy1, some ix0, some ix1,
            some jy0, some jy1, some jx0, some jx1 =>
            if jy1 - jy0 ≠ iy1 - iy0 ∨ jx1 - jx0 ≠ ix1 - ix0 then
              Except.error ("could not broadcast input array")
            else
              Except.ok
                (squeeze ⟨[n, t, ndy, ndx], fun lin =>
                  let i3 := lin % ndx
                  let i2 := lin / ndx % ndy
                  if jy0 ≤ i2 ∧ i2 < jy1 ∧ jx0 ≤ i3 ∧ i3 < jx1 then
                    R4.f (lin / (ndx * ndy) * (Y * X) +
                      (iy0 + (i2 - jy0)) * X + (ix0 + (i3 - jx0)))
                  else Val.num md.zerovalue⟩,
                 { md with y1 := ymin, y2 := ymax, x1 := xmin, x2 := xmax })
          | _, _, _, _, _, _, _, _ => Except.error ("IndexError: index 0 is out of bounds")

/-- Field of an `adjust_domain` result (`none` on error). -/
def adField (e : Except String (NDArray × Metadata)) : Option NDArray :=
  match e with
  | Except.ok (F, _) => some F
  | Except.error _ => none

/-- A shared concrete metadata record for witnesses and counterexamples. -/
def md0 : Metadata :=
  { unit := ("mm"), timestamps := [0, 300, 600, 900], leadtimes := none,
    accutime := none, xpixelsize := 1, ypixelsize := 1,
    x1 := 0, x2 := 4, y1 := 0, y2 := 4, zerovalue := 0,
    orig_domain := none, square_method := none }

/-! ### Index machinery: `flatten`, `unflatten`, `swapL` -/

theorem list_ext_getD {x y : List ℕ} (hl : x.length = y.length)
    (h : ∀ i < x.length, x.getD i 0 = y.getD i 0) : x = y := by
  induction x generalizing y with
  | nil => cases y with
    | nil => rfl
    | cons b ys => simp at hl
  | cons a xs ih =>
    cases y with
    | nil => simp at hl
    | cons b ys =>
      have h0 := h 0 (Nat.succ_pos _)
      simp only [List.getD_cons_zero] at h0
      subst h0
      have : xs = ys := by
        refine ih (by simpa using hl) (fun i hi => ?_)
        have := h (i + 1) (by simpa using Nat.succ_lt_succ hi)
        simpa using this
      rw [this]

theorem getD_set_self (l : List ℕ) (i v : ℕ) (h : i < l.length) :
    (l.set i v).getD i 0 = v := by
  simp [List.getD_eq_getElem?_getD, List.getElem?_set, h]

theorem getD_set_other (l : List ℕ) (i j v : ℕ) (h : i ≠ j) :
    (l.set i v).getD j 0 = l.getD j 0 := by
  simp [List.getD_eq_getElem?_getD, List.getElem?_set, h]

theorem validIdx_nil_iff (idx : List ℕ) : validIdx [] idx ↔ idx = [] := by
  unfold validIdx
  simp [List.length_eq_zero]

theorem validIdx_cons_iff (n : ℕ) (s : List ℕ) (i : ℕ) (idx : List ℕ) :
    validIdx (n :: s) (i :: idx) ↔ i < n ∧ validIdx s idx := by
  unfold validIdx
  constructor
  · rintro ⟨h1, h2⟩
    refine ⟨by simpa using h2 0 (Nat.succ_pos _), by simpa using h1, fun j hj => ?_⟩
    have := h2 (j + 1) (by simpa using Nat.succ_lt_succ hj)
    simpa using this
  · rintro ⟨hi, h1, h2⟩
    refine ⟨by simpa using h1, fun j hj => ?_⟩
    cases j with
    | zero => simpa using hi
    | succ j =>
      have hj2 : j < s.length := by simpa using hj
      simpa using h2 j hj2

theorem flatten_lt {s idx : List ℕ} (h : validIdx s idx) : flatten s idx < s.prod := by
  induction s generalizing idx with
  | nil =>
    have := (validIdx_nil_iff idx).1 h
    subst this
    simp [flatten]
  | cons n ss ih =>
    have hlen : idx.length = (n :: ss).length := h.1
    cases idx with
    | nil => simp at hlen
    | cons i is =>
      obtain ⟨hi, hrest⟩ := (validIdx_cons_iff n ss i is).1 h
      have hr := ih hrest
      have : i * ss.prod + flatten ss is < (i + 1) * ss.prod := by
        rw [Nat.succ_mul]
        exact Nat.add_lt_add_left hr _
      calc flatten (n :: ss) (i :: is) = i * ss.prod + flatten ss is := rfl
        _ < (i + 1) * ss.prod := this
        _ ≤ n * ss.prod := Nat.mul_le_mul_right _ hi
        _ = (n :: ss).prod := by simp

theorem unflatten_flatten {s idx : List ℕ} (h : validIdx s idx) :
    unflatten s (flatten s idx) = idx := by
  induction s generalizing idx with
  | nil =>
    have := (validIdx_nil_iff idx).1 h
    subst this
    rfl
  | cons n ss ih =>
    have hlen : idx.length = (n :: ss).length := h.1
    cases idx with
    | nil => simp at hlen
    | cons i is =>
      obtain ⟨hi, hrest⟩ := (validIdx_cons_iff n ss i is).1 h
      have hr : flatten ss is < ss.prod := flatten_lt hrest
      have hp : 0 < ss.prod := lt_of_le_of_lt (Nat.zero_le _) hr
      show (i * ss.prod + flatten ss is) / ss.prod ::
        unflatten ss ((i * ss.prod + flatten ss is) % ss.prod) = i :: is
      rw [mul_comm i ss.prod, Nat.mul_add_div hp, Nat.div_eq_of_lt hr,
        Nat.mul_add_mod, Nat.mod_eq_of_lt hr, Nat.add_zero, ih hrest]

theorem length_swapL (a : ℕ) (l : List ℕ) : (swapL a l).length = l.length := by
  simp [swapL]

theorem getD_swapL (a : ℕ) (l : List ℕ) (ha : a < l.length) (i : ℕ) :
    (swapL a l).getD i 0 = l.getD (if i = 0 then a else if i = a then 0 else i) 0 := by
  have h0 : 0 < l.length := lt_of_le_of_lt (Nat.zero_le a) ha
  unfold swapL
  by_cases hi0 : i = 0
  · subst hi0
    simp only [if_pos rfl]
    exact getD_set_self _ 0 _ (by simpa using h0)
  · rw [getD_set_other _ 0 i _ (fun h => hi0 h.symm)]
    by_cases hia : i = a
    · subst hia
      simp only [if_neg hi0, if_pos rfl]
      exact getD_set_self _ i _ (by simpa using ha)
    · rw [getD_set_other _ a i _ (fun h => hia h.symm), if_neg hi0, if_neg hia]

theorem swapL_swapL (a : ℕ) (l : List ℕ) (ha : a < l.length) :
    swapL a (swapL a l) = l := by
  refine list_ext_getD (by simp [length_swapL]) (fun i hi => ?_)
  have ha2 : a < (swapL a l).length := by simpa [length_swapL] using ha
  rw [getD_swapL a _ ha2, getD_swapL a l ha]
  by_cases hi0 : i = 0
  · subst hi0
    by_cases ha0 : a = 0 <;> simp [ha0]
  · by_cases hia : i = a
    · subst hia
      simp [hi0]
    · simp [hi0, hia]

theorem cons_set_perm (a : ℕ) (xs : List ℕ) (x : ℕ) (ha : a < xs.length) :
    (xs.getD a 0 :: xs.set a x).Perm (x :: xs) := by
  induction a generalizing xs with
  | zero =>
    cases xs with
    | nil => simp at ha
    | cons y ys => simpa using List.Perm.swap x y ys
  | succ a ih =>
    cases xs with
    | nil => simp at ha
    | cons y ys =>
      have ha2 : a < ys.length := by simpa using ha
      have step1 : (ys.getD a 0 :: y :: ys.set a x).Perm
          (y :: ys.getD a 0 :: ys.set a x) := List.Perm.swap y (ys.getD a 0) _
      have step2 : (y :: ys.getD a 0 :: ys.set a x).Perm (y :: x :: ys) :=
        List.Perm.cons y (ih ys ha2)
      have step3 : (y :: x :: ys).Perm (x :: y :: ys) := List.Perm.swap x y ys
      simpa using step1.trans (step2.trans step3)

theorem swapL_perm (a : ℕ) (l : List ℕ) (ha : a < l.length) : (swapL a l).Perm l := by
  cases a with
  | zero =>
    cases l with
    | nil => simp at ha
    | cons y ys =>
      have : swapL 0 (y :: ys) = y :: ys := by simp [swapL]
      rw [this]
  | succ a =>
    cases l with
    | nil => simp at ha
    | cons x xs =>
      have ha2 : a < xs.length := by simpa using ha
      have : swapL (a + 1) (x :: xs) = xs.getD a 0 :: xs.set a x := by
        simp [swapL]
      rw [this]
      exact cons_set_perm a xs x ha2

theorem prod_swapL (a : ℕ) (l : List ℕ) (ha : a < l.length) :
    (swapL a l).prod = l.prod :=
  (swapL_perm a l ha).prod_eq

theorem swapL_set_zero (a : ℕ) (l : List ℕ) (ha : a < l.length) (v : ℕ) :
    swapL a (l.set 0 v) = (swapL a l).set a v := by
  have h0 : 0 < l.length := lt_of_le_of_lt (Nat.zero_le a) ha
  refine list_ext_getD (by simp [length_swapL]) (fun i hi => ?_)
  have ha2 : a < (l.set 0 v).length := by simpa using ha
  rw [getD_swapL a _ ha2]
  by_cases hia : i = a
  · subst hia
    have hs : (if i = 0 then i else if i = i then 0 else i) = 0 := by
      by_cases h : i = 0 <;> simp [h]
    rw [hs, getD_set_self l 0 v h0,
      getD_set_self _ i v (by simpa [length_swapL] using ha)]
  · by_cases hi0 : i = 0
    · subst hi0
      have ha0 : a ≠ 0 := fun h => hia h.symm
      rw [if_pos rfl, getD_set_other l 0 a v (fun h => ha0 h.symm),
        getD_set_other _ a 0 v ha0, getD_swapL a l ha, if_pos rfl]
    · rw [if_neg hi0, if_neg hia, getD_set_other l 0 i v (fun h => hi0 h.symm),
        getD_set_other _ a i v (fun h => hia h.symm), getD_swapL a l ha,
        if_neg hi0, if_neg hia]

theorem swapL_set_a (a : ℕ) (l : List ℕ) (ha : a < l.length) (v : ℕ) :
    swapL a (l.set a v) = (swapL a l).set 0 v := by
  have h0 : 0 < l.length := lt_of_le_of_lt (Nat.zero_le a) ha
  refine list_ext_getD (by simp [length_swapL]) (fun i hi => ?_)
  have ha2 : a < (l.set a v).length := by simpa using ha
  rw [getD_swapL a _ ha2]
  by_cases hi0 : i = 0
  · subst hi0
    rw [if_pos rfl, getD_set_self l a v ha,
      getD_set_self _ 0 v (by simpa [length_swapL] using h0)]
  · rw [if_neg hi0, getD_set_other _ 0 i v (fun h => hi0 h.symm), getD_swapL a l ha,
      if_neg hi0]
    by_cases hia : i = a
    · subst hia
      rw [if_pos rfl]
      exact getD_set_other l i 0 v hi0
    · rw [if_neg hia]
      exact getD_set_other l a i v (fun h => hia h.symm)

theorem validIdx_swapL {s j : List ℕ} (a : ℕ) (ha : a < s.length)
    (h : validIdx s j) : validIdx (swapL a s) (swapL a j) := by
  have hlen : j.length = s.length := h.1
  have haj : a < j.length := hlen ▸ ha
  refine ⟨by simp [length_swapL, hlen], fun i hi => ?_⟩
  have hi2 : i < s.length := by simpa [length_swapL] using hi
  rw [getD_swapL a s ha, getD_swapL a j haj]
  by_cases hi0 : i = 0
  · subst hi0
    simp only [if_pos rfl]
    exact h.2 a ha
  · by_cases hia : i = a
    · subst hia
      simp only [if_neg hi0, if_pos rfl]
      exact h.2 0 (lt_of_le_of_lt (Nat.zero_le i) ha)
    · simp only [if_neg hi0, if_neg hia]
      exact h.2 i hi2

theorem get_swapaxes (a : ℕ) (A : NDArray) (j : List ℕ)
    (hj : validIdx (swapL a A.shape) j) :
    (swapaxes a A).get j = A.get (swapL a j) := by
  show A.f (flatten A.shape (swapL a (unflatten (swapL a A.shape)
    (flatten (swapL a A.shape) j)))) = A.f (flatten A.shape (swapL a j))
  rw [unflatten_flatten hj]

theorem reduceOp_sum : reduceOp ("sum") = some npSum := by
  simp only [reduceOp]
  rw [if_pos (by decide)]

theorem reduceOp_mean : reduceOp ("mean") = some npMean := by
  simp only [reduceOp]
  rw [if_neg (by decide), if_pos (by decide)]

theorem reduceOp_median : reduceOp ("median") = none := by
  simp only [reduceOp]
  rw [if_neg (by decide), if_neg (by decide), if_neg (by decide), if_neg (by decide)]

/-! ### The Window Aggregator: success characterisation -/

theorem aggregate_eq_ok (R : NDArray) (w a : ℕ) (m : String) (op : List Val → Val)
    (hop : reduceOp m = some op) (ha : a < R.shape.length)
    (hN : 0 < R.shape.getD a 0) (hdvd : w ∣ R.shape.getD a 0) :
    aggregate_fields R w a m = Except.ok (aggOut R w a op) := by
  have hw : ¬ w = 0 := by
    rintro rfl
    rw [Nat.zero_dvd] at hdvd
    omega
  have h1 : R.shape.getD a 0 % w = 0 := (Nat.dvd_iff_mod_eq_zero).mp hdvd
  have h2 : ¬ R.shape.getD a 0 = 0 := Nat.pos_iff_ne_zero.mp hN
  simp only [aggregate_fields]
  rw [if_pos ha, if_neg hw, if_neg (not_not_intro h1), if_neg h2, hop]

theorem aggOut_shape (R : NDArray) (w a : ℕ) (op : List Val → Val)
    (ha : a < R.shape.length) :
    (aggOut R w a op).shape = R.shape.set a (R.shape.getD a 0 / w) := by
  show swapL a ((swapL a R.shape).set 0 (R.shape.getD a 0 / w)) = _
  rw [swapL_set_zero a _ (by simpa [length_swapL] using ha), swapL_swapL a _ ha]

theorem aggOut_get (R : NDArray) (w a : ℕ) (op : List Val → Val)
    (ha : a < R.shape.length) (hN : 0 < R.shape.getD a 0) (j : List ℕ)
    (hj : validIdx (R.shape.set a (R.shape.getD a 0 / w)) j) :
    (aggOut R w a op).get j =
      op ((List.range w).map (fun t => R.get (j.set a (j.getD a 0 * w + t)))) := by
  have haj : a < j.length := by
    rw [hj.1, List.length_set]
    exact ha
  have hshape4 : swapL a ((swapL a R.shape).set 0 (R.shape.getD a 0 / w)) =
      R.shape.set a (R.shape.getD a 0 / w) := by
    rw [swapL_set_zero a _ (by simpa [length_swapL] using ha), swapL_swapL a _ ha]
  have hj4 : validIdx (swapL a ((swapL a R.shape).set 0 (R.shape.getD a 0 / w))) j := by
    rw [hshape4]
    exact hj
  have hjj : validIdx ((swapL a R.shape).set 0 (R.shape.getD a 0 / w)) (swapL a j) := by
    have h2 := validIdx_swapL a (by simpa using ha :
      a < (R.shape.set a (R.shape.getD a 0 / w)).length) hj
    rwa [swapL_set_a a _ ha] at h2
  cases hsw : swapL a R.shape with
  | nil =>
    exfalso
    have hl := length_swapL a R.shape
    rw [hsw] at hl
    simp at hl
    omega
  | cons h0 tl =>
    cases hjje : swapL a j with
    | nil =>
      exfalso
      have hl := length_swapL a j
      rw [hjje] at hl
      simp at hl
      omega
    | cons k1 rest =>
      rw [hsw, hjje, List.set_cons_zero] at hjj
      obtain ⟨hk1, hrest⟩ := (validIdx_cons_iff _ _ _ _).1 hjj
      have hk1j : k1 = j.getD a 0 := by
        have hg := getD_swapL a j haj 0
        rw [hjje, List.getD_cons_zero, if_pos rfl] at hg
        exact hg
      have hr : flatten tl rest < tl.prod := flatten_lt hrest
      have hcpos : 0 < tl.prod := lt_of_le_of_lt (Nat.zero_le _) hr
      have hc : (swapaxes a R).numel / R.shape.getD a 0 = tl.prod := by
        show (swapL a R.shape).prod / _ = _
        have hh0 : h0 = R.shape.getD a 0 := by
          have hg := getD_swapL a R.shape ha 0
          rw [hsw, List.getD_cons_zero, if_pos rfl] at hg
          exact hg
        rw [hsw, List.prod_cons, hh0, Nat.mul_div_cancel_left _ hN]
      have step1 : (aggOut R w a op).get j =
          op ((List.range w).map (fun t => (swapaxes a R).f
            ((flatten ((swapL a R.shape).set 0 (R.shape.getD a 0 / w)) (swapL a j) /
                ((swapaxes a R).numel / R.shape.getD a 0) * w + t) *
              ((swapaxes a R).numel / R.shape.getD a 0) +
              flatten ((swapL a R.shape).set 0 (R.shape.getD a 0 / w)) (swapL a j) %
                ((swapaxes a R).numel / R.shape.getD a 0)))) := by
        show (swapaxes a
          (⟨(swapL a R.shape).set 0 (R.shape.getD a 0 / w),
            fun lin => op ((List.range w).map
              (fun t => (swapaxes a R).f
                ((lin / ((swapaxes a R).numel / R.shape.getD a 0) * w + t) *
                  ((swapaxes a R).numel / R.shape.getD a 0) +
                  lin % ((swapaxes a R).numel / R.shape.getD a 0))))⟩ : NDArray)).get j = _
        rw [get_swapaxes a _ j hj4]
        rfl
      rw [step1]
      have hflat : flatten ((swapL a R.shape).set 0 (R.shape.getD a 0 / w)) (swapL a j) =
          k1 * tl.prod + flatten tl rest := by
        rw [hsw, hjje, List.set_cons_zero]
        rfl
      have hdiv : (k1 * tl.prod + flatten tl rest) / tl.prod = k1 := by
        rw [mul_comm k1 tl.prod, Nat.mul_add_div hcpos, Nat.div_eq_of_lt hr, Nat.add_zero]
      have hmod2 : (k1 * tl.prod + flatten tl rest) % tl.prod = flatten tl rest := by
        rw [mul_comm k1 tl.prod, Nat.mul_add_mod, Nat.mod_eq_of_lt hr]
      simp only [hflat, hc, hdiv, hmod2]
      congr 1
      refine List.map_congr_left (fun t ht => ?_)
      show R.f (flatten R.shape (swapL a (unflatten (swapL a R.shape)
        ((k1 * w + t) * tl.prod + flatten tl rest)))) = _
      have hdiv2 : ((k1 * w + t) * tl.prod + flatten tl rest) / tl.prod = k1 * w + t := by
        rw [mul_comm (k1 * w + t) tl.prod, Nat.mul_add_div hcpos,
          Nat.div_eq_of_lt hr, Nat.add_zero]
      have hmod3 : ((k1 * w + t) * tl.prod + flatten tl rest) % tl.prod =
          flatten tl rest := by
        rw [mul_comm (k1 * w + t) tl.prod, Nat.mul_add_mod, Nat.mod_eq_of_lt hr]
      have huf : unflatten (swapL a R.shape)
          ((k1 * w + t) * tl.prod + flatten tl rest) = (k1 * w + t) :: rest := by
        rw [hsw]
        show ((k1 * w + t) * tl.prod + flatten tl rest) / tl.prod ::
          unflatten tl (((k1 * w + t) * tl.prod + flatten tl rest) % tl.prod) = _
        rw [hdiv2, hmod3, unflatten_flatten hrest]
      rw [huf]
      have hset : (k1 * w + t) :: rest = (swapL a j).set 0 (k1 * w + t) := by
        rw [hjje, List.set_cons_zero]
      rw [hset, swapL_set_zero a _ (by simpa [length_swapL] using haj),
        swapL_swapL a j haj]
      show R.get (j.set a (k1 * w + t)) = _
      rw [hk1j]

/-- Claim C3, amended: for every array with a positive extent along the
chosen in-range axis, every positive window `w` dividing that extent and
every recognized reduction, `aggregate_fields` returns an array whose extent
along the axis is `N / w` with all other extents unchanged in order, and
whose entry at any multi-index is the reduction of exactly the `w` input
slices of block `k = j[axis]`, indices `[k*w, (k+1)*w)`, in original order.
(The unamended claim fails when the extent is `0`: numpy cannot infer the
`-1` of `reshape((0, -1))` and raises.) -/
theorem c3_window_aggregator (R : NDArray) (w a : ℕ) (m : String)
    (op : List Val → Val) (hop : reduceOp m = some op) (ha : a < R.shape.length)
    (hw : 0 < w) (hN : 0 < R.shape.getD a 0) (hdvd : w ∣ R.shape.getD a 0) :
    exShape (aggregate_fields R w a m) = R.shape.set a (R.shape.getD a 0 / w) ∧
    ∀ j, validIdx (R.shape.set a (R.shape.getD a 0 / w)) j →
      exGet (aggregate_fields R w a m) j =
        some (op ((List.range w).map (fun t => R.get (j.set a (j.getD a 0 * w + t))))) := by
  have he := aggregate_eq_ok R w a m op hop ha hN hdvd
  constructor
  · rw [he]
    show (aggOut R w a op).shape = _
    exact aggOut_shape R w a op ha
  · intro j hj
    rw [he]
    show some ((aggOut R w a op).get j) = _
    rw [aggOut_get R w a op ha hN j hj]

/-- Witness for C3: a `[4]` array aggregated with window 2 and method `sum`;
output slice 1 is the sum of input slices 2 and 3. -/
theorem c3_window_aggregator_witness :
    (0 < 2 ∧ (2 : ℕ) ∣ 4) ∧
    exShape (aggregate_fields (mkArr [4] [1, 2, 3, 4]) 2 0 ("sum")) =
      (mkArr [4] [1, 2, 3, 4]).shape.set 0
        ((mkArr [4] [1, 2, 3, 4]).shape.getD 0 0 / 2) ∧
    exGet (aggregate_fields (mkArr [4] [1, 2, 3, 4]) 2 0 ("sum")) [1] =
      some (npSum ((List.range 2).map (fun t =>
        (mkArr [4] [1, 2, 3, 4]).get ([1].set 0 ([1].getD 0 0 * 2 + t))))) := by
  have h := c3_window_aggregator (mkArr [4] [1, 2, 3, 4]) 2 0 ("sum") npSum
    reduceOp_sum (by decide) (by decide) (by decide) (by decide)
  exact ⟨⟨by decide, by decide⟩, h.1, h.2 [1] (by decide)⟩

/-- Counterexample to C3 as stated: the positive window 1 divides the extent
0, yet `aggregate_fields` raises instead of returning an array of extent 0
(numpy cannot reshape a size-0 array into `(0, -1)`). -/
theorem c3_counterexample :
    (0 < 1 ∧ (1 : ℕ) ∣ 0 ∧ reduceOp ("mean") = some npMean) ∧
    exOk (aggregate_fields (mkArr [0] []) 1 0 ("mean")) = false :=
  ⟨⟨by decide, by decide, reduceOp_mean⟩, rfl⟩

/-- Claim C5, amended: for an in-range axis, `aggregate_fields` fails with
the divisibility error naming the window and the extent whenever the
positive window does not divide the extent, fails with the unknown-method
error for an unrecognized method name, and never raises when the axis is in
range, the extent is positive, the window divides it and the method is
recognized.  (The unamended claim fails for an out-of-range axis — Python
raises `IndexError` on `R.shape[axis]` — and for extent 0, where numpy
raises in `reshape`.) -/
theorem c5_error_behaviour :
    (∀ (R : NDArray) (w a : ℕ) (m : String), a < R.shape.length → 0 < w →
      ¬ w ∣ R.shape.getD a 0 →
      aggregate_fields R w a m = Except.error ("window_size " ++ toString w ++
        (" does not equally split R.shape[axis] ") ++ toString (R.shape.getD a 0))) ∧
    (∀ (R : NDArray) (w a : ℕ) (m : String), a < R.shape.length → 0 < w →
      w ∣ R.shape.getD a 0 → 0 < R.shape.getD a 0 → reduceOp m = none →
      aggregate_fields R w a m = Except.error ("unknown method " ++ m)) ∧
    (∀ (R : NDArray) (w a : ℕ) (m : String) (op : List Val → Val),
      a < R.shape.length → 0 < R.shape.getD a 0 → w ∣ R.shape.getD a 0 →
      reduceOp m = some op → exOk (aggregate_fields R w a m) = true) := by
  refine ⟨fun R w a m ha hw hnd => ?_, fun R w a m ha hw hdvd hN hm => ?_,
    fun R w a m op ha hN hdvd hop => ?_⟩
  · have hw0 : ¬ w = 0 := Nat.pos_iff_ne_zero.mp hw
    have hmod : R.shape.getD a 0 % w ≠ 0 := by
      intro h
      exact hnd ((Nat.dvd_iff_mod_eq_zero).mpr h)
    simp only [aggregate_fields]
    rw [if_pos ha, if_neg hw0, if_pos hmod]
  · have hw0 : ¬ w = 0 := Nat.pos_iff_ne_zero.mp hw
    have h1 : R.shape.getD a 0 % w = 0 := (Nat.dvd_iff_mod_eq_zero).mp hdvd
    have h2 : ¬ R.shape.getD a 0 = 0 := Nat.pos_iff_ne_zero.mp hN
    simp only [aggregate_fields]
    rw [if_pos ha, if_neg hw0, if_neg (not_not_intro h1), if_neg h2, hm]
  · rw [aggregate_eq_ok R w a m op hop ha hN hdvd]
    rfl

/-- Witness for C5: the three behaviours at concrete inputs — window 2 on
extent 3 gives the divisibility error, method `median` gives the
unknown-method error, and window 2 on extent 4 with `mean` succeeds. -/
theorem c5_error_behaviour_witness :
    aggregate_fields (mkArr [3] [1, 2, 3]) 2 0 ("mean") =
      Except.error ("window_size " ++ toString 2 ++
        (" does not equally split R.shape[axis] ") ++
        toString ((mkArr [3] [1, 2, 3]).shape.getD 0 0)) ∧
    aggregate_fields (mkArr [4] [1, 2, 3, 4]) 2 0 ("median") =
      Except.error ("unknown method " ++ ("median")) ∧
    exOk (aggregate_fields (mkArr [4] [1, 2, 3, 4]) 2 0 ("mean")) = true := by
  refine ⟨c5_error_behaviour.1 _ 2 0 _ (by decide) (by decide) (by decide),
    c5_error_behaviour.2.1 _ 2 0 _ (by decide) (by decide) (by decide) (by decide)
      reduceOp_median,
    c5_error_behaviour.2.2 _ 2 0 _ npMean (by decide) (by decide) (by decide)
      reduceOp_mean⟩

/-- Counterexample to C5 as stated: with the recognized method `mean` and a
window dividing the (absent or zero) extent, the call still raises — for an
out-of-range axis (Python `IndexError` on `R.shape[axis]`) and for a zero
extent (numpy `reshape((0, -1))`). -/
theorem c5_counterexample :
    ((1 : ℕ) ∣ 2 ∧
      exOk (aggregate_fields (mkArr [2, 2] [1, 2, 3, 4]) 1 2 ("mean")) = false) ∧
    ((1 : ℕ) ∣ 0 ∧
      exOk (aggregate_fields (mkArr [0, 3] []) 1 0 ("mean")) = false) :=
  ⟨⟨by decide, rfl⟩, ⟨by decide, rfl⟩⟩

/-! ### The Temporal and Spatial Aggregators -/

theorem timeAxis_lt (R : NDArray) (h : R.shape.length = 3 ∨ R.shape.length = 4) :
    timeAxis R < R.shape.length := by
  unfold timeAxis
  rcases h with h | h <;> simp [h]

theorem spaceAxisY_lt (R : NDArray) (h : R.shape.length = 3 ∨ R.shape.length = 4) :
    spaceAxisY R + 1 < R.shape.length := by
  unfold spaceAxisY
  rcases h with h | h <;> simp [h]

/-- Evaluation of `aggregate_fields_time` along its success path: with the
validation hypotheses, a unit dispatching to `method`, and a positive block
count `nf = int(tw/delta)` dividing the number of frames, the call returns
the window-aggregated field together with the resampled metadata. -/
theorem time_eval (R : NDArray) (md : Metadata) (tw : ℚ) (method : String)
    (hpath : timePathOK R md tw)
    (hdisp : (if md.unit = ("mm/h") then some ("mean")
              else if md.unit = ("mm") then some ("sum") else none) = some method)
    (nf : ℕ) (hnf : intTrunc (tw / deltaOf md) = (nf : ℤ))
    (hdvd : nf ∣ R.shape.getD (timeAxis R) 0) (op : List Val → Val)
    (hop : reduceOp method = some op) :
    aggregate_fields_time R md (some tw) =
      Except.ok (aggOut R nf (timeAxis R) op,
        { md with
          accutime := some tw,
          timestamps := pySliceStride md.timestamps (nf - 1) nf,
          leadtimes := md.leadtimes.map (fun lt => pySliceStride lt (nf - 1) nf) }) := by
  obtain ⟨hrank, hts, hts2, hdne, htw0, hqmod, hd0⟩ := hpath
  have h3 : ¬ R.shape.length < 3 := by omega
  have h4 : ¬ 4 < R.shape.length := by omega
  have hN : 0 < R.shape.getD (timeAxis R) 0 := by rw [hts]; omega
  simp only [aggregate_fields_time]
  rw [if_neg h3, if_neg h4, if_neg (not_not_intro hts), if_neg (by omega),
    if_neg hdne, if_neg htw0, if_neg (not_not_intro hqmod), if_neg hd0, hdisp, hnf]
  simp only [Int.toNat_natCast]
  rw [if_neg (not_lt.mpr (Int.natCast_nonneg nf)),
    aggregate_eq_ok R nf (timeAxis R) method op hop (timeAxis_lt R hrank) hN hdvd]
  rfl

/-- Evaluation of `aggregate_fields_time` when the unit is unrecognized:
with the validation hypotheses the call stops at the unit dispatch. -/
theorem time_eval_badunit (R : NDArray) (md : Metadata) (tw : ℚ)
    (hpath : timePathOK R md tw) (hu1 : md.unit ≠ ("mm/h")) (hu2 : md.unit ≠ ("mm")) :
    aggregate_fields_time R md (some tw) =
      Except.error ("can only aggregate units of mm/h or mm not " ++ md.unit) := by
  obtain ⟨hrank, hts, hts2, hdne, htw0, hqmod, hd0⟩ := hpath
  have h3 : ¬ R.shape.length < 3 := by omega
  have h4 : ¬ 4 < R.shape.length := by omega
  simp only [aggregate_fields_time]
  rw [if_neg h3, if_neg h4, if_neg (not_not_intro hts), if_neg (by omega),
    if_neg hdne, if_neg htw0, if_neg (not_not_intro hqmod), if_neg hd0,
    if_neg hu1, if_neg hu2]

/-- Evaluation of `aggregate_fields_space` along its success path: the call
aggregates the first spatial axis, then the second, and records the new
pixel sizes. -/
theorem space_eval (R : NDArray) (md : Metadata) (sw : ℚ) (method : String)
    (hpath : spacePathOK R md sw)
    (hdisp : (if md.unit = ("mm/h") then some ("mean")
              else if md.unit = ("mm") then some ("sum") else none) = some method)
    (nfy nfx : ℕ)
    (hnfy : intTrunc (sw / md.ypixelsize) = (nfy : ℤ))
    (hnfx : intTrunc (sw / md.xpixelsize) = (nfx : ℤ))
    (hm : 0 < R.shape.getD (spaceAxisY R) 0)
    (hn : 0 < R.shape.getD (spaceAxisY R + 1) 0)
    (hdy : nfy ∣ R.shape.getD (spaceAxisY R) 0)
    (hdx : nfx ∣ R.shape.getD (spaceAxisY R + 1) 0)
    (op : List Val → Val) (hop : reduceOp method = some op) :
    aggregate_fields_space R md (some sw) =
      Except.ok (aggOut (aggOut R nfy (spaceAxisY R) op) nfx (spaceAxisY R + 1) op,
        { md with
          ypixelsize := sw,
          xpixelsize := sw }) := by
  obtain ⟨hrank, hne, hsw0, hqy, hqx, hy0, hx0⟩ := hpath
  have h3 : ¬ R.shape.length < 3 := by omega
  have h4 : ¬ 4 < R.shape.length := by omega
  have hax : spaceAxisY R + 1 < R.shape.length := spaceAxisY_lt R hrank
  have hay : spaceAxisY R < R.shape.length := by omega
  have hQ : ¬ (qmod ((R.shape.getD (spaceAxisY R) 0 : ℚ) * md.ypixelsize) sw ≠ 0 ∨
      qmod ((R.shape.getD (spaceAxisY R + 1) 0 : ℚ) * md.xpixelsize) sw ≠ 0) := by
    push_neg
    exact ⟨hqy, hqx⟩
  have hP : ¬ (md.ypixelsize = 0 ∨ md.xpixelsize = 0) := by
    push_neg
    exact ⟨hy0, hx0⟩
  have h1 := aggregate_eq_ok R nfy (spaceAxisY R) method op hop hay hm hdy
  have hsh1 : (aggOut R nfy (spaceAxisY R) op).shape =
      R.shape.set (spaceAxisY R) (R.shape.getD (spaceAxisY R) 0 / nfy) :=
    aggOut_shape R nfy (spaceAxisY R) op hay
  have hax2 : spaceAxisY R + 1 < (aggOut R nfy (spaceAxisY R) op).shape.length := by
    rw [hsh1, List.length_set]
    exact hax
  have hgetx : (aggOut R nfy (spaceAxisY R) op).shape.getD (spaceAxisY R + 1) 0 =
      R.shape.getD (spaceAxisY R + 1) 0 := by
    rw [hsh1]
    exact getD_set_other _ _ _ _ (by omega)
  have h2 := aggregate_eq_ok (aggOut R nfy (spaceAxisY R) op) nfx
    (spaceAxisY R + 1) method op hop hax2 (by rw [hgetx]; exact hn)
    (by rw [hgetx]; exact hdx)
  simp only [aggregate_fields_space]
  rw [if_neg h3, if_neg h4, if_neg hne, if_neg hsw0, if_neg hQ, if_neg hP,
    hdisp, hnfy, hnfx]
  simp only [Int.toNat_natCast]
  rw [if_neg (by push_neg; exact ⟨Int.natCast_nonneg nfy, Int.natCast_nonneg nfx⟩),
    h1]
  simp only [Except.bind]
  rw [h2]
  rfl

/-- Evaluation of `aggregate_fields_space` when the unit is unrecognized:
with the validation hypotheses the call stops at the unit dispatch. -/
theorem space_eval_badunit (R : NDArray) (md : Metadata) (sw : ℚ)
    (hpath : spacePathOK R md sw)
    (hu1 : md.unit ≠ ("mm/h")) (hu2 : md.unit ≠ ("mm")) :
    aggregate_fields_space R md (some sw) =
      Except.error ("can only aggregate units of mm/h or mm not " ++ md.unit) := by
  obtain ⟨hrank, hne, hsw0, hqy, hqx, hy0, hx0⟩ := hpath
  have h3 : ¬ R.shape.length < 3 := by omega
  have h4 : ¬ 4 < R.shape.length := by omega
  have hQ : ¬ (qmod ((R.shape.getD (spaceAxisY R) 0 : ℚ) * md.ypixelsize) sw ≠ 0 ∨
      qmod ((R.shape.getD (spaceAxisY R + 1) 0 : ℚ) * md.xpixelsize) sw ≠ 0) := by
    push_neg
    exact ⟨hqy, hqx⟩
  have hP : ¬ (md.ypixelsize = 0 ∨ md.xpixelsize = 0) := by
    push_neg
    exact ⟨hy0, hx0⟩
  simp only [aggregate_fields_space]
  rw [if_neg h3, if_neg h4, if_neg hne, if_neg hsw0, if_neg hQ, if_neg hP,
    if_neg hu1, if_neg hu2]

theorem intTrunc_natCast (n : ℕ) : intTrunc ((n : ℚ)) = (n : ℤ) := by
  unfold intTrunc
  rw [if_pos (by positivity), Int.floor_natCast]

theorem validIdx_set_axis {s j : List ℕ} {i k : ℕ} (hi : i < s.length)
    (h : validIdx (s.set i k) j) {v : ℕ} (hv : v < s.getD i 0) :
    validIdx s (j.set i v) := by
  have hlen : j.length = s.length := by
    rw [h.1, List.length_set]
  have hij : i < j.length := hlen ▸ hi
  refine ⟨by rw [List.length_set, hlen], fun p hp => ?_⟩
  by_cases hpi : p = i
  · subst hpi
    rw [getD_set_self j p v hij]
    exact hv
  · rw [getD_set_other j i p v (fun h2 => hpi h2.symm)]
    have := h.2 p (by rw [List.length_set]; exact hp)
    rwa [getD_set_other s i p k (fun h2 => hpi h2.symm)] at this

theorem block_lt {k w N t : ℕ} (hk : k < N / w) (ht : t < w) (hdvd : w ∣ N) :
    k * w + t < N := by
  have h1 : k * w + t < (k + 1) * w := by
    rw [Nat.succ_mul]
    omega
  have h2 : (k + 1) * w ≤ (N / w) * w := Nat.mul_le_mul_right w hk
  rw [Nat.div_mul_cancel hdvd] at h2
  omega

/-- Claim C6: for every successful non-no-op Temporal Aggregator call with
block size `nframes = window/delta`, the output timestamps are the input
timestamps with offset `nframes - 1` and stride `nframes` (the last original
timestamp of each block), `accutime` is the requested window length, and a
present `leadtimes` is resampled with the same offset and stride (an absent
one stays absent). -/
theorem c6_timestamp_resample (R : NDArray) (md : Metadata) (tw : ℚ) (nf : ℕ)
    (hpath : timePathOK R md tw)
    (hu : md.unit = ("mm/h") ∨ md.unit = ("mm"))
    (hnf : (nf : ℚ) = tw / deltaOf md) (hpos : 0 < nf)
    (hdvd : nf ∣ R.shape.getD (timeAxis R) 0) :
    exOk (aggregate_fields_time R md (some tw)) = true ∧
    (pairMeta (aggregate_fields_time R md (some tw))).map Metadata.timestamps =
      some (pySliceStride md.timestamps (nf - 1) nf) ∧
    (pairMeta (aggregate_fields_time R md (some tw))).map Metadata.accutime =
      some (some tw) ∧
    (pairMeta (aggregate_fields_time R md (some tw))).map Metadata.leadtimes =
      some (md.leadtimes.map (fun lt => pySliceStride lt (nf - 1) nf)) := by
  have hint : intTrunc (tw / deltaOf md) = (nf : ℤ) := by
    rw [← hnf]
    exact intTrunc_natCast nf
  rcases hu with hu | hu
  · rw [time_eval R md tw ("mean") hpath (by simp [hu]) nf hint hdvd npMean
      reduceOp_mean]
    exact ⟨rfl, rfl, rfl, rfl⟩
  · rw [time_eval R md tw ("sum") hpath (by simp [hu]) nf hint hdvd npSum
      reduceOp_sum]
    exact ⟨rfl, rfl, rfl, rfl⟩

/-- Witness for C6: four frames five minutes apart aggregated to a
ten-minute window; the output timestamps are the second and fourth input
timestamps and `accutime` is 10. -/
theorem c6_timestamp_resample_witness :
    (timePathOK (mkArr [4, 2, 2] []) md0 10 ∧ ((2 : ℕ) : ℚ) = 10 / deltaOf md0 ∧
      (2 : ℕ) ∣ (mkArr [4, 2, 2] []).shape.getD (timeAxis (mkArr [4, 2, 2] [])) 0) ∧
    (pairMeta (aggregate_fields_time (mkArr [4, 2, 2] []) md0 (some 10))).map
      Metadata.timestamps = some (pySliceStride md0.timestamps (2 - 1) 2) ∧
    (pairMeta (aggregate_fields_time (mkArr [4, 2, 2] []) md0 (some 10))).map
      Metadata.accutime = some (some 10) := by
  have hpath : timePathOK (mkArr [4, 2, 2] []) md0 10 := by
    norm_num [timePathOK, deltaOf, md0, qmod, timeAxis, mkArr]
  have hnf : ((2 : ℕ) : ℚ) = 10 / deltaOf md0 := by
    norm_num [deltaOf, md0]
  have h := c6_timestamp_resample (mkArr [4, 2, 2] []) md0 10 2 hpath
    (Or.inr rfl) hnf (by decide) (by decide)
  exact ⟨⟨hpath, hnf, by decide⟩, h.2.1, h.2.2.1⟩

/-- Claim C10: the Temporal Aggregator checks divisibility of the total time
span by the window (hypothesis `qmod (t·delta) window = 0` inside
`timePathOK`), not divisibility of the window by `delta`; it uses block size
`nframes = int(window/delta)`; hence whenever `nframes·delta ≠ window` the
call still succeeds, every output step is the reduction of exactly `nframes`
input frames (covering `nframes·delta` minutes), while `accutime` is set to
the full requested window. -/
theorem c10_span_divisibility (R : NDArray) (md : Metadata) (tw : ℚ) (nf : ℕ)
    (hpath : timePathOK R md tw) (hu : md.unit = ("mm"))
    (hnf : intTrunc (tw / deltaOf md) = (nf : ℤ)) (hpos : 0 < nf)
    (hnd : (nf : ℚ) * deltaOf md ≠ tw)
    (hdvd : nf ∣ R.shape.getD (timeAxis R) 0) :
    exOk (aggregate_fields_time R md (some tw)) = true ∧
    (pairMeta (aggregate_fields_time R md (some tw))).map Metadata.accutime =
      some (some tw) ∧
    (pairField (aggregate_fields_time R md (some tw))).map NDArray.shape =
      some (R.shape.set (timeAxis R) (R.shape.getD (timeAxis R) 0 / nf)) ∧
    ∀ j, validIdx (R.shape.set (timeAxis R) (R.shape.getD (timeAxis R) 0 / nf)) j →
      (pairField (aggregate_fields_time R md (some tw))).map (fun F => F.get j) =
        some (npSum ((List.range nf).map (fun t =>
          R.get (j.set (timeAxis R) (j.getD (timeAxis R) 0 * nf + t))))) := by
  have hN : 0 < R.shape.getD (timeAxis R) 0 := by
    have h2 := hpath.2.2.1
    rw [hpath.2.1]
    omega
  rw [time_eval R md tw ("sum") hpath (by simp [hu]) nf hnf hdvd npSum
    reduceOp_sum]
  refine ⟨rfl, rfl, ?_, fun j hj => ?_⟩
  · show some (aggOut R nf (timeAxis R) npSum).shape = _
    rw [aggOut_shape R nf (timeAxis R) npSum (timeAxis_lt R hpath.1)]
  · show some ((aggOut R nf (timeAxis R) npSum).get j) = _
    rw [aggOut_get R nf (timeAxis R) npSum (timeAxis_lt R hpath.1) hN j hj]

/-- Witness for C10: three frames two minutes apart, window three minutes —
the span (6 min) is a multiple of the window but `delta = 2` does not divide
it; the call succeeds with block size `int(3/2) = 1`, each output step is a
single two-minute frame, and `accutime` is 3. -/
theorem c10_span_divisibility_witness :
    (timePathOK (mkArr [3, 2, 2] [5]) { md0 with timestamps := [0, 120, 240] } 3 ∧
      intTrunc (3 / deltaOf { md0 with timestamps := [0, 120, 240] }) = ((1 : ℕ) : ℤ) ∧
      ((1 : ℕ) : ℚ) * deltaOf { md0 with timestamps := [0, 120, 240] } ≠ 3) ∧
    exOk (aggregate_fields_time (mkArr [3, 2, 2] [5])
      { md0 with timestamps := [0, 120, 240] } (some 3)) = true ∧
    (pairMeta (aggregate_fields_time (mkArr [3, 2, 2] [5])
      { md0 with timestamps := [0, 120, 240] } (some 3))).map Metadata.accutime =
      some (some 3) ∧
    (pairField (aggregate_fields_time (mkArr [3, 2, 2] [5])
      { md0 with timestamps := [0, 120, 240] } (some 3))).map
        (fun F => F.get [0, 0, 0]) =
      some (npSum ((List.range 1).map (fun t =>
        (mkArr [3, 2, 2] [5]).get
          ([0, 0, 0].set (timeAxis (mkArr [3, 2, 2] [5]))
            ([0, 0, 0].getD (timeAxis (mkArr [3, 2, 2] [5])) 0 * 1 + t))))) := by
  have hpath : timePathOK (mkArr [3, 2, 2] [5])
      { md0 with timestamps := [0, 120, 240] } 3 := by
    norm_num [timePathOK, deltaOf, md0, qmod, timeAxis, mkArr]
  have hnf : intTrunc (3 / deltaOf { md0 with timestamps := [0, 120, 240] }) =
      ((1 : ℕ) : ℤ) := by
    norm_num [intTrunc, deltaOf, md0]
  have hnd : ((1 : ℕ) : ℚ) * deltaOf { md0 with timestamps := [0, 120, 240] } ≠ 3 := by
    norm_num [deltaOf, md0]
  have h := c10_span_divisibility (mkArr [3, 2, 2] [5])
    { md0 with timestamps := [0, 120, 240] } 3 1 hpath rfl hnf (by decide)
    hnd (by decide)
  exact ⟨⟨hpath, hnf, hnd⟩, h.1, h.2.1,
    h.2.2.2 [0, 0, 0] (by decide)⟩

/-- Value-level composition of the two spatial aggregations: each entry of
the doubly aggregated field is the reduction over the `nfx`-column block of
reductions over the `nfy`-row block of the original field. -/
theorem space_get_compose (R : NDArray) (nfy nfx : ℕ) (op : List Val → Val)
    (hrank : R.shape.length = 3 ∨ R.shape.length = 4)
    (hm : 0 < R.shape.getD (spaceAxisY R) 0)
    (hn : 0 < R.shape.getD (spaceAxisY R + 1) 0)
    (hdx : nfx ∣ R.shape.getD (spaceAxisY R + 1) 0)
    (j : List ℕ)
    (hj : validIdx ((R.shape.set (spaceAxisY R)
      (R.shape.getD (spaceAxisY R) 0 / nfy)).set (spaceAxisY R + 1)
      (R.shape.getD (spaceAxisY R + 1) 0 / nfx)) j) :
    (aggOut (aggOut R nfy (spaceAxisY R) op) nfx (spaceAxisY R + 1) op).get j =
      op ((List.range nfx).map (fun t1 =>
        op ((List.range nfy).map (fun t0 =>
          R.get ((j.set (spaceAxisY R + 1) (j.getD (spaceAxisY R + 1) 0 * nfx + t1)).set
            (spaceAxisY R) (j.getD (spaceAxisY R) 0 * nfy + t0)))))) := by
  have hax : spaceAxisY R + 1 < R.shape.length := spaceAxisY_lt R hrank
  have hay : spaceAxisY R < R.shape.length := by omega
  have hsh1 : (aggOut R nfy (spaceAxisY R) op).shape =
      R.shape.set (spaceAxisY R) (R.shape.getD (spaceAxisY R) 0 / nfy) :=
    aggOut_shape R nfy (spaceAxisY R) op hay
  have hax1 : spaceAxisY R + 1 < (aggOut R nfy (spaceAxisY R) op).shape.length := by
    rw [hsh1, List.length_set]
    exact hax
  have hgx : (aggOut R nfy (spaceAxisY R) op).shape.getD (spaceAxisY R + 1) 0 =
      R.shape.getD (spaceAxisY R + 1) 0 := by
    rw [hsh1]
    exact getD_set_other _ _ _ _ (by omega)
  have hj2 : validIdx ((aggOut R nfy (spaceAxisY R) op).shape.set (spaceAxisY R + 1)
      ((aggOut R nfy (spaceAxisY R) op).shape.getD (spaceAxisY R + 1) 0 / nfx)) j := by
    rw [hsh1, getD_set_other _ _ _ _ (by omega : spaceAxisY R ≠ spaceAxisY R + 1)]
    exact hj
  rw [aggOut_get (aggOut R nfy (spaceAxisY R) op) nfx (spaceAxisY R + 1) op hax1
    (by rw [hgx]; exact hn) j hj2]
  congr 1
  refine List.map_congr_left (fun t1 ht1 => ?_)
  have hk : j.getD (spaceAxisY R + 1) 0 <
      R.shape.getD (spaceAxisY R + 1) 0 / nfx := by
    have h2 := hj.2 (spaceAxisY R + 1)
      (by rw [List.length_set, List.length_set]; exact hax)
    rwa [getD_set_self _ (spaceAxisY R + 1) _ (by rw [List.length_set]; exact hax)]
      at h2
  have hjq : validIdx
      (R.shape.set (spaceAxisY R) (R.shape.getD (spaceAxisY R) 0 / nfy))
      (j.set (spaceAxisY R + 1)
        (j.getD (spaceAxisY R + 1) 0 * nfx + t1)) := by
    refine validIdx_set_axis (by rw [List.length_set]; exact hax) hj ?_
    rw [getD_set_other _ _ _ _ (by omega : spaceAxisY R ≠ spaceAxisY R + 1)]
    exact block_lt hk (List.mem_range.mp ht1) hdx
  rw [aggOut_get R nfy (spaceAxisY R) op hay hm _ hjq]
  have hgay : (j.set (spaceAxisY R + 1)
      (j.getD (spaceAxisY R + 1) 0 * nfx + t1)).getD (spaceAxisY R) 0 =
      j.getD (spaceAxisY R) 0 :=
    getD_set_other j _ _ _ (by omega)
  simp only [hgay]

/-- Claim C4, amended: for both the Temporal and the Spatial Aggregator,
a call that reaches the unit dispatch (the validation path hypotheses of
`timePathOK`/`spacePathOK`) uses the mean reduction when the unit is
`mm/h` and the sum reduction when it is `mm` — observable as every output
entry being the mean/sum of its input block — and fails with the
configuration error, producing no output, for any other unit.  (The
unamended claim fails for calls that do not reach the dispatch: the
`None`-window no-op succeeds whatever the unit.) -/
theorem c4_unit_dispatch :
    (∀ (R : NDArray) (md : Metadata) (tw : ℚ) (nf : ℕ),
      timePathOK R md tw → md.unit = ("mm/h") →
      intTrunc (tw / deltaOf md) = (nf : ℤ) →
      nf ∣ R.shape.getD (timeAxis R) 0 →
      exOk (aggregate_fields_time R md (some tw)) = true ∧
      ∀ j, validIdx (R.shape.set (timeAxis R) (R.shape.getD (timeAxis R) 0 / nf)) j →
        (pairField (aggregate_fields_time R md (some tw))).map (fun F => F.get j) =
          some (npMean ((List.range nf).map (fun t =>
            R.get (j.set (timeAxis R) (j.getD (timeAxis R) 0 * nf + t)))))) ∧
    (∀ (R : NDArray) (md : Metadata) (tw : ℚ) (nf : ℕ),
      timePathOK R md tw → md.unit = ("mm") →
      intTrunc (tw / deltaOf md) = (nf : ℤ) →
      nf ∣ R.shape.getD (timeAxis R) 0 →
      exOk (aggregate_fields_time R md (some tw)) = true ∧
      ∀ j, validIdx (R.shape.set (timeAxis R) (R.shape.getD (timeAxis R) 0 / nf)) j →
        (pairField (aggregate_fields_time R md (some tw))).map (fun F => F.get j) =
          some (npSum ((List.range nf).map (fun t =>
            R.get (j.set (timeAxis R) (j.getD (timeAxis R) 0 * nf + t)))))) ∧
    (∀ (R : NDArray) (md : Metadata) (tw : ℚ),
      timePathOK R md tw → md.unit ≠ ("mm/h") → md.unit ≠ ("mm") →
      aggregate_fields_time R md (some tw) =
        Except.error ("can only aggregate units of mm/h or mm not " ++ md.unit)) ∧
    (∀ (R : NDArray) (md : Metadata) (sw : ℚ) (nfy nfx : ℕ),
      spacePathOK R md sw → md.unit = ("mm/h") →
      intTrunc (sw / md.ypixelsize) = (nfy : ℤ) →
      intTrunc (sw / md.xpixelsize) = (nfx : ℤ) →
      0 < R.shape.getD (spaceAxisY R) 0 →
      0 < R.shape.getD (spaceAxisY R + 1) 0 →
      nfy ∣ R.shape.getD (spaceAxisY R) 0 →
      nfx ∣ R.shape.getD (spaceAxisY R + 1) 0 →
      exOk (aggregate_fields_space R md (some sw)) = true ∧
      ∀ j, validIdx ((R.shape.set (spaceAxisY R)
          (R.shape.getD (spaceAxisY R) 0 / nfy)).set (spaceAxisY R + 1)
          (R.shape.getD (spaceAxisY R + 1) 0 / nfx)) j →
        (pairField (aggregate_fields_space R md (some sw))).map (fun F => F.get j) =
          some (npMean ((List.range nfx).map (fun t1 =>
            npMean ((List.range nfy).map (fun t0 =>
              R.get ((j.set (spaceAxisY R + 1)
                (j.getD (spaceAxisY R + 1) 0 * nfx + t1)).set
                (spaceAxisY R) (j.getD (spaceAxisY R) 0 * nfy + t0)))))))) ∧
    (∀ (R : NDArray) (md : Metadata) (sw : ℚ) (nfy nfx : ℕ),
      spacePathOK R md sw → md.unit = ("mm") →
      intTrunc (sw / md.ypixelsize) = (nfy : ℤ) →
      intTrunc (sw / md.xpixelsize) = (nfx : ℤ) →
      0 < R.shape.getD (spaceAxisY R) 0 →
      0 < R.shape.getD (spaceAxisY R + 1) 0 →
      nfy ∣ R.shape.getD (spaceAxisY R) 0 →
      nfx ∣ R.shape.getD (spaceAxisY R + 1) 0 →
      exOk (aggregate_fields_space R md (some sw)) = true ∧
      ∀ j, validIdx ((R.shape.set (spaceAxisY R)
          (R.shape.getD (spaceAxisY R) 0 / nfy)).set (spaceAxisY R + 1)
          (R.shape.getD (spaceAxisY R + 1) 0 / nfx)) j →
        (pairField (aggregate_fields_space R md (some sw))).map (fun F => F.get j) =
          some (npSum ((List.range nfx).map (fun t1 =>
            npSum ((List.range nfy).map (fun t0 =>
              R.get ((j.set (spaceAxisY R + 1)
                (j.getD (spaceAxisY R + 1) 0 * nfx + t1)).set
                (spaceAxisY R) (j.getD (spaceAxisY R) 0 * nfy + t0)))))))) ∧
    (∀ (R : NDArray) (md : Metadata) (sw : ℚ),
      spacePathOK R md sw → md.unit ≠ ("mm/h") → md.unit ≠ ("mm") →
      aggregate_fields_space R md (some sw) =
        Except.error ("can only aggregate units of mm/h or mm not " ++ md.unit)) := by
  refine ⟨fun R md tw nf hpath hu hnf hdvd => ?_,
    fun R md tw nf hpath hu hnf hdvd => ?_,
    fun R md tw hpath hu1 hu2 => time_eval_badunit R md tw hpath hu1 hu2,
    fun R md sw nfy nfx hpath hu hnfy hnfx hm hn hdy hdx => ?_,
    fun R md sw nfy nfx hpath hu hnfy hnfx hm hn hdy hdx => ?_,
    fun R md sw hpath hu1 hu2 => space_eval_badunit R md sw hpath hu1 hu2⟩
  · have hN : 0 < R.shape.getD (timeAxis R) 0 := by
      have h2 := hpath.2.2.1
      rw [hpath.2.1]
      omega
    rw [time_eval R md tw ("mean") hpath (by simp [hu]) nf hnf hdvd npMean
      reduceOp_mean]
    refine ⟨rfl, fun j hj => ?_⟩
    show some ((aggOut R nf (timeAxis R) npMean).get j) = _
    rw [aggOut_get R nf (timeAxis R) npMean (timeAxis_lt R hpath.1) hN j hj]
  · have hN : 0 < R.shape.getD (timeAxis R) 0 := by
      have h2 := hpath.2.2.1
      rw [hpath.2.1]
      omega
    rw [time_eval R md tw ("sum") hpath (by simp [hu]) nf hnf hdvd npSum
      reduceOp_sum]
    refine ⟨rfl, fun j hj => ?_⟩
    show some ((aggOut R nf (timeAxis R) npSum).get j) = _
    rw [aggOut_get R nf (timeAxis R) npSum (timeAxis_lt R hpath.1) hN j hj]
  · rw [space_eval R md sw ("mean") hpath (by simp [hu]) nfy nfx hnfy hnfx
      hm hn hdy hdx npMean reduceOp_mean]
    refine ⟨rfl, fun j hj => ?_⟩
    show some ((aggOut (aggOut R nfy (spaceAxisY R) npMean) nfx
      (spaceAxisY R + 1) npMean).get j) = _
    rw [space_get_compose R nfy nfx npMean hpath.1 hm hn hdx j hj]
  · rw [space_eval R md sw ("sum") hpath (by simp [hu]) nfy nfx hnfy hnfx
      hm hn hdy hdx npSum reduceOp_sum]
    refine ⟨rfl, fun j hj => ?_⟩
    show some ((aggOut (aggOut R nfy (spaceAxisY R) npSum) nfx
      (spaceAxisY R + 1) npSum).get j) = _
    rw [space_get_compose R nfy nfx npSum hpath.1 hm hn hdx j hj]

/-- Witness for C4: concrete temporal calls (four 5-minute frames, window
10) and spatial calls (a 4x4 grid of 1-meter pixels, window 2) under units
`mm/h`, `mm` and `furlongs`. -/
theorem c4_unit_dispatch_witness :
    (exOk (aggregate_fields_time (mkArr [4, 2, 2] [])
      { md0 with unit := ("mm/h") } (some 10)) = true ∧
     (pairField (aggregate_fields_time (mkArr [4, 2, 2] [])
       { md0 with unit := ("mm/h") } (some 10))).map (fun F => F.get [0, 0, 0]) =
       some (npMean ((List.range 2).map (fun t =>
         (mkArr [4, 2, 2] []).get
           ([0, 0, 0].set (timeAxis (mkArr [4, 2, 2] []))
             ([0, 0, 0].getD (timeAxis (mkArr [4, 2, 2] [])) 0 * 2 + t)))))) ∧
    exOk (aggregate_fields_time (mkArr [4, 2, 2] []) md0 (some 10)) = true ∧
    aggregate_fields_time (mkArr [4, 2, 2] [])
      { md0 with unit := ("furlongs") } (some 10) =
      Except.error ("can only aggregate units of mm/h or mm not " ++
        ({ md0 with unit := ("furlongs") } : Metadata).unit) ∧
    (exOk (aggregate_fields_space (mkArr [1, 4, 4] []) md0 (some 2)) = true ∧
     (pairField (aggregate_fields_space (mkArr [1, 4, 4] []) md0
       (some 2))).map (fun F => F.get [0, 1, 1]) =
       some (npSum ((List.range 2).map (fun t1 =>
         npSum ((List.range 2).map (fun t0 =>
           (mkArr [1, 4, 4] []).get
             (([0, 1, 1].set (spaceAxisY (mkArr [1, 4, 4] []) + 1)
               ([0, 1, 1].getD (spaceAxisY (mkArr [1, 4, 4] []) + 1) 0 * 2 + t1)).set
               (spaceAxisY (mkArr [1, 4, 4] []))
               ([0, 1, 1].getD (spaceAxisY (mkArr [1, 4, 4] [])) 0 * 2 + t0)))))))) ∧
    exOk (aggregate_fields_space (mkArr [1, 4, 4] [])
      { md0 with unit := ("mm/h") } (some 2)) = true ∧
    aggregate_fields_space (mkArr [1, 4, 4] [])
      { md0 with unit := ("furlongs") } (some 2) =
      Except.error ("can only aggregate units of mm/h or mm not " ++
        ({ md0 with unit := ("furlongs") } : Metadata).unit) := by
  have hpathT : ∀ u : String, timePathOK (mkArr [4, 2, 2] []) { md0 with unit := u } 10 := by
    intro u
    norm_num [timePathOK, deltaOf, md0, qmod, timeAxis, mkArr]
  have hnfT : ∀ u : String,
      intTrunc (10 / deltaOf { md0 with unit := u }) = ((2 : ℕ) : ℤ) := by
    intro u
    norm_num [intTrunc, deltaOf, md0]
  have hpathS : ∀ u : String, spacePathOK (mkArr [1, 4, 4] []) { md0 with unit := u } 2 := by
    intro u
    norm_num [spacePathOK, qmod, md0, spaceAxisY, mkArr]
  have hnfS : ∀ u : String,
      intTrunc (2 / ({ md0 with unit := u } : Metadata).ypixelsize) = ((2 : ℕ) : ℤ) ∧
      intTrunc (2 / ({ md0 with unit := u } : Metadata).xpixelsize) = ((2 : ℕ) : ℤ) := by
    intro u
    constructor <;> norm_num [intTrunc, md0]
  have h1 := c4_unit_dispatch.1 (mkArr [4, 2, 2] []) { md0 with unit := ("mm/h") }
    10 2 (hpathT _) rfl (hnfT _) (by decide)
  have h2 := (c4_unit_dispatch.2.1 (mkArr [4, 2, 2] []) md0
    10 2 (hpathT ("mm")) rfl (hnfT _) (by decide)).1
  have h3 := c4_unit_dispatch.2.2.1 (mkArr [4, 2, 2] [])
    { md0 with unit := ("furlongs") } 10 (hpathT _) (by decide) (by decide)
  have h4 := c4_unit_dispatch.2.2.2.2.1 (mkArr [1, 4, 4] []) md0 2 2 2
    (hpathS ("mm")) rfl (hnfS _).1 (hnfS _).2 (by decide) (by decide)
    (by decide) (by decide)
  have h5 := (c4_unit_dispatch.2.2.2.1 (mkArr [1, 4, 4] [])
    { md0 with unit := ("mm/h") } 2 2 2 (hpathS _) rfl (hnfS _).1 (hnfS _).2
    (by decide) (by decide) (by decide) (by decide)).1
  have h6 := c4_unit_dispatch.2.2.2.2.2 (mkArr [1, 4, 4] [])
    { md0 with unit := ("furlongs") } 2 (hpathS _) (by decide) (by decide)
  exact ⟨⟨h1.1, h1.2 [0, 0, 0] (by decide)⟩, h2, h3,
    ⟨h4.1, h4.2 [0, 1, 1] (by decide)⟩, h5, h6⟩

/-- Counterexample to C4 as stated: a Temporal or Spatial Aggregator call
with the unrecognized unit `furlongs` and a `None` window succeeds (the
no-op path returns the input pair before the unit is ever inspected),
contradicting "for any other unit value the call fails". -/
theorem c4_counterexample :
    ({ md0 with unit := ("furlongs") } : Metadata).unit ≠ ("mm/h") ∧
    ({ md0 with unit := ("furlongs") } : Metadata).unit ≠ ("mm") ∧
    aggregate_fields_time (mkArr [4, 2, 2] []) { md0 with unit := ("furlongs") } none =
      Except.ok (mkArr [4, 2, 2] [], { md0 with unit := ("furlongs") }) ∧
    aggregate_fields_space (mkArr [4, 2, 2] []) { md0 with unit := ("furlongs") } none =
      Except.ok (mkArr [4, 2, 2] [], { md0 with unit := ("furlongs") }) :=
  ⟨by decide, by decide, rfl, rfl⟩

theorem promote_id4 (A B y x : ℕ) (g : ℕ → Val) :
    promote ⟨[A, B, y, x], g⟩ = ⟨[A, B, y, x], g⟩ := by
  simp [promote]


theorem divmod_mul_add_div (m r q : ℕ) (hr : r < m) : (q * m + r) / m = q := by
  have hm : 0 < m := lt_of_le_of_lt (Nat.zero_le r) hr
  rw [mul_comm q m, Nat.mul_add_div hm, Nat.div_eq_of_lt hr, Nat.add_zero]

theorem divmod_mul_add_mod (m r q : ℕ) (hr : r < m) : (q * m + r) % m = r := by
  rw [mul_comm q m, Nat.mul_add_mod, Nat.mod_eq_of_lt hr]

theorem tdiv_sub_cast (y x : ℕ) (h : x ≤ y) :
    Int.tdiv ((y : ℤ) - (x : ℤ)) 2 = (((y - x) / 2 : ℕ) : ℤ) := by
  have h1 : (y : ℤ) - (x : ℤ) = ((y - x : ℕ) : ℤ) := by omega
  rw [h1, Int.tdiv_eq_ediv (by positivity) (by norm_num)]
  omega

theorem pyStart_le (L b : ℕ) (h : b ≤ L) : pyStart L (b : ℤ) = b := by
  unfold pyStart
  rw [if_neg (by omega), Int.toNat_natCast]
  omega

theorem pyStart_add (L b w : ℕ) (h : b + w ≤ L) :
    pyStart L ((b : ℤ) + (w : ℤ)) = b + w := by
  unfold pyStart
  rw [if_neg (by omega)]
  have h2 : ((b : ℤ) + (w : ℤ)).toNat = b + w := by omega
  rw [h2]
  omega

theorem sliceLen_eval (L b w : ℕ) (h : b + w ≤ L) :
    sliceLen L (b : ℤ) ((b : ℤ) + (w : ℤ)) = w := by
  unfold sliceLen
  rw [pyStart_add L b w h, pyStart_le L b (by omega)]
  omega

theorem decomp3 (x y lin : ℕ) (hx : 0 < x) :
    lin / (x * y) * (y * x) + lin / x % y * x + lin % x = lin := by
  calc lin / (x * y) * (y * x) + lin / x % y * x + lin % x
      = (y * (lin / x / y) + lin / x % y) * x + lin % x := by
        rw [Nat.div_div_eq_div_mul]
        ring
    _ = lin / x * x + lin % x := by rw [Nat.div_add_mod]
    _ = x * (lin / x) + lin % x := by ring
    _ = lin := Nat.div_add_mod lin x

theorem comp_pad_x (y x b : ℕ) (fill : Val) (g : ℕ → Val)
    (hbx : b + x ≤ y) (hx : 0 < x) (lin : ℕ) :
    read3 y (b : ℤ) ((b : ℤ) + (x : ℤ))
      (write3 y (b : ℤ) ((b : ℤ) + (x : ℤ)) (fun _ => fill) g) lin = g lin := by
  unfold read3 write3
  simp only [pyStart_le y b (by omega), pyStart_add y b x hbx,
    sliceLen_eval y b x hbx, show b + x - b = x from by omega]
  have hmod : lin % x < x := Nat.mod_lt _ hx
  have hin : (lin / x * y + (b + lin % x)) % y = b + lin % x :=
    divmod_mul_add_mod y _ _ (by omega)
  rw [hin, if_pos (by omega), divmod_mul_add_div y _ _ (by omega),
    show b + lin % x - b = lin % x from by omega,
    show lin / x * x + lin % x = lin from by rw [mul_comm]; exact Nat.div_add_mod lin x]

theorem comp_pad_y (D y x b : ℕ) (fill : Val) (g : ℕ → Val)
    (hby : b + y ≤ D) (hx : 0 < x) (hy : 0 < y) (lin : ℕ) :
    read2 D x (b : ℤ) ((b : ℤ) + (y : ℤ))
      (write2 D x (b : ℤ) ((b : ℤ) + (y : ℤ)) (fun _ => fill) g) lin = g lin := by
  unfold read2 write2
  simp only [pyStart_le D b (by omega), pyStart_add D b y hby,
    sliceLen_eval D b y hby, show b + y - b = y from by omega]
  have hmodx : lin % x < x := Nat.mod_lt _ hx
  have hmody : lin / x % y < y := Nat.mod_lt _ hy
  have heq : lin / (x * y) * (D * x) + (b + lin / x % y) * x + lin % x =
      (lin / (x * y) * D + (b + lin / x % y)) * x + lin % x := by ring
  rw [heq]
  have hdivx : ((lin / (x * y) * D + (b + lin / x % y)) * x + lin % x) / x =
      lin / (x * y) * D + (b + lin / x % y) := divmod_mul_add_div x _ _ hmodx
  have hi3 : ((lin / (x * y) * D + (b + lin / x % y)) * x + lin % x) % x = lin % x :=
    divmod_mul_add_mod x _ _ hmodx
  have hi2 : ((lin / (x * y) * D + (b + lin / x % y)) * x + lin % x) / x % D =
      b + lin / x % y := by
    rw [hdivx, divmod_mul_add_mod D _ _ (by omega)]
  rw [hi3, hi2, if_pos (by omega)]
  have hlead2 : ((lin / (x * y) * D + (b + lin / x % y)) * x + lin % x) / (x * D) =
      lin / (x * y) := by
    have heq2 : (lin / (x * y) * D + (b + lin / x % y)) * x + lin % x =
        lin / (x * y) * (x * D) + ((b + lin / x % y) * x + lin % x) := by ring
    rw [heq2]
    refine divmod_mul_add_div (x * D) _ _ ?_
    calc (b + lin / x % y) * x + lin % x < (b + lin / x % y + 1) * x := by
          rw [Nat.succ_mul]
          omega
      _ ≤ D * x := Nat.mul_le_mul_right x (by omega)
      _ = x * D := mul_comm D x
  rw [hlead2, show b + lin / x % y - b = lin / x % y from by omega,
    decomp3 x y lin hx]

theorem comp_crop_x (x D b : ℕ) (g : ℕ → Val)
    (hbD : b + D ≤ x) (hD : 0 < D) (lin : ℕ) :
    write3 x (b : ℤ) ((b : ℤ) + (D : ℤ)) (fun _ => Val.num 0)
      (read3 x (b : ℤ) ((b : ℤ) + (D : ℤ)) g) lin =
    if b ≤ lin % x ∧ lin % x < b + D then g lin else Val.num 0 := by
  unfold read3 write3
  simp only [pyStart_le x b (by omega), pyStart_add x b D hbD,
    sliceLen_eval x b D hbD, show b + D - b = D from by omega]
  by_cases hband : b ≤ lin % x ∧ lin % x < b + D
  · rw [if_pos hband, if_pos hband]
    have hlt : lin % x - b < D := by omega
    rw [divmod_mul_add_div D _ _ hlt, divmod_mul_add_mod D _ _ hlt,
      show b + (lin % x - b) = lin % x from by omega,
      show lin / x * x + lin % x = lin from by
        rw [mul_comm]; exact Nat.div_add_mod lin x]
  · rw [if_neg hband, if_neg hband]

theorem comp_crop_y (y x D b : ℕ) (g : ℕ → Val)
    (hbD : b + D ≤ y) (hD : 0 < D) (hx : 0 < x) (lin : ℕ) :
    write2 y x (b : ℤ) ((b : ℤ) + (D : ℤ)) (fun _ => Val.num 0)
      (read2 y x (b : ℤ) ((b : ℤ) + (D : ℤ)) g) lin =
    if b ≤ lin / x % y ∧ lin / x % y < b + D then g lin else Val.num 0 := by
  unfold read2 write2
  simp only [pyStart_le y b (by omega), pyStart_add y b D hbD,
    sliceLen_eval y b D hbD, show b + D - b = D from by omega]
  by_cases hband : b ≤ lin / x % y ∧ lin / x % y < b + D
  · rw [if_pos hband, if_pos hband]
    have hmodx : lin % x < x := Nat.mod_lt _ hx
    have hi2D : lin / x % y - b < D := by omega
    have heq : lin / (x * y) * (D * x) + (lin / x % y - b) * x + lin % x =
        (lin / (x * y) * D + (lin / x % y - b)) * x + lin % x := by ring
    rw [heq]
    have hdivx : ((lin / (x * y) * D + (lin / x % y - b)) * x + lin % x) / x =
        lin / (x * y) * D + (lin / x % y - b) := divmod_mul_add_div x _ _ hmodx
    have hmx : ((lin / (x * y) * D + (lin / x % y - b)) * x + lin % x) % x =
        lin % x := divmod_mul_add_mod x _ _ hmodx
    have hlead2 : ((lin / (x * y) * D + (lin / x % y - b)) * x + lin % x) / (x * D) =
        lin / (x * y) := by
      have heq2 : (lin / (x * y) * D + (lin / x % y - b)) * x + lin % x =
          lin / (x * y) * (x * D) + ((lin / x % y - b) * x + lin % x) := by ring
      rw [heq2]
      refine divmod_mul_add_div (x * D) _ _ ?_
      calc (lin / x % y - b) * x + lin % x < (lin / x % y - b + 1) * x := by
            rw [Nat.succ_mul]
            omega
        _ ≤ D * x := Nat.mul_le_mul_right x (by omega)
        _ = x * D := mul_comm D x
    have hmD : ((lin / (x * y) * D + (lin / x % y - b)) * x + lin % x) / x % D =
        lin / x % y - b := by
      rw [hdivx, divmod_mul_add_mod D _ _ hi2D]
    rw [hlead2, hmD, hmx, show b + (lin / x % y - b) = lin / x % y from by omega,
      decomp3 x y lin hx]
  · rw [if_neg hband, if_neg hband]

theorem squeeze_f (A : NDArray) : (squeeze A).f = A.f := rfl

theorem promote_f (A : NDArray) : (promote A).f = A.f := by
  unfold promote
  by_cases h2 : A.shape.length = 2
  · rw [if_pos h2]
  · rw [if_neg h2]
    by_cases h3 : A.shape.length = 3
    · rw [if_pos h3]
    · rw [if_neg h3]

theorem promote_squeeze4 (A B y x : ℕ) (g : ℕ → Val) (hy : 2 ≤ y) (hx : 2 ≤ x) :
    ∃ A2 B2, A2 * B2 = A * B ∧
      2 ≤ (squeeze ⟨[A, B, y, x], g⟩).shape.length ∧
      (squeeze ⟨[A, B, y, x], g⟩).shape.length ≤ 4 ∧
      promote (squeeze ⟨[A, B, y, x], g⟩) = ⟨[A2, B2, y, x], g⟩ := by
  have hy1 : ¬ (y = 1) := by omega
  have hx1 : ¬ (x = 1) := by omega
  by_cases hA : A = 1 <;> by_cases hB : B = 1
  · refine ⟨1, 1, by rw [hA, hB], ?_, ?_, ?_⟩ <;>
      simp [squeeze, promote, List.filter_cons, hA, hB, hy1, hx1]
  · refine ⟨1, B, by rw [hA], ?_, ?_, ?_⟩ <;>
      simp [squeeze, promote, List.filter_cons, hA, hB, hy1, hx1]
  · refine ⟨1, A, by rw [hB]; ring, ?_, ?_, ?_⟩ <;>
      simp [squeeze, promote, List.filter_cons, hA, hB, hy1, hx1]
  · refine ⟨A, B, rfl, ?_, ?_, ?_⟩ <;>
      simp [squeeze, promote, List.filter_cons, hA, hB, hy1, hx1]

theorem squeeze4_out (A B y x : ℕ) (g : ℕ → Val) (hy : 2 ≤ y) (hx : 2 ≤ x) :
    lastTwo (squeeze ⟨[A, B, y, x], g⟩).shape = [y, x] ∧
    (squeeze ⟨[A, B, y, x], g⟩).shape.prod = A * B * y * x := by
  have hy1 : ¬ (y = 1) := by omega
  have hx1 : ¬ (x = 1) := by omega
  by_cases hA : A = 1 <;> by_cases hB : B = 1 <;>
    constructor <;>
    simp [squeeze, List.filter_cons, lastTwo, hA, hB, hy1, hx1] <;> try ring

theorem sqfwd_pad_x (A B y x : ℕ) (g : ℕ → Val) (md : Metadata)
    (hA : 0 < A) (hB : 0 < B) (hy : 2 ≤ y) (hx : 2 ≤ x) (hxy : x < y) :
    square_forward ⟨[A, B, y, x], g⟩ md ("pad") = Except.ok (SqRes.pair
      (squeeze ⟨[A, B, y, y],
        write3 y (((y - x) / 2 : ℕ) : ℤ) ((((y - x) / 2 : ℕ) : ℤ) + (x : ℤ))
          (fun _ => npMin ⟨[A, B, y, x], g⟩) g⟩)
      { md with
        x1 := md.x1 - (((y - x) / 2 : ℕ) : ℚ) * md.xpixelsize,
        x2 := md.x2 + (((y - x) / 2 : ℕ) : ℚ) * md.xpixelsize,
        orig_domain := some (y, x), square_method := some ("pad") }) := by
  have hD : max y x = y := Nat.max_eq_left (Nat.le_of_lt hxy)
  have hne : ¬ (y = x) := by omega
  have hnum : ¬ ((⟨[A, B, y, x], g⟩ : NDArray).numel = 0) := by
    show ¬ ([A, B, y, x].prod = 0)
    simp [Nat.pos_iff_ne_zero.mp hA, Nat.pos_iff_ne_zero.mp hB]
    constructor <;> omega
  simp only [square_forward, promote_id4, List.getD_cons_succ, List.getD_cons_zero]
  rw [if_neg (by simp), if_neg (by simp), if_neg hne, if_pos trivial, if_neg hnum,
    if_pos (by omega : x < max y x), hD]

theorem sqfwd_pad_y (A B y x : ℕ) (g : ℕ → Val) (md : Metadata)
    (hA : 0 < A) (hB : 0 < B) (hy : 2 ≤ y) (hx : 2 ≤ x) (hyx : y < x) :
    square_forward ⟨[A, B, y, x], g⟩ md ("pad") = Except.ok (SqRes.pair
      (squeeze ⟨[A, B, x, x],
        write2 x x (((x - y) / 2 : ℕ) : ℤ) ((((x - y) / 2 : ℕ) : ℤ) + (y : ℤ))
          (fun _ => npMin ⟨[A, B, y, x], g⟩) g⟩)
      { md with
        y1 := md.y1 - (((x - y) / 2 : ℕ) : ℚ) * md.ypixelsize,
        y2 := md.y2 + (((x - y) / 2 : ℕ) : ℚ) * md.ypixelsize,
        orig_domain := some (y, x), square_method := some ("pad") }) := by
  have hD : max y x = x := Nat.max_eq_right (Nat.le_of_lt hyx)
  have hne : ¬ (y = x) := by omega
  have hnum : ¬ ((⟨[A, B, y, x], g⟩ : NDArray).numel = 0) := by
    show ¬ ([A, B, y, x].prod = 0)
    simp [Nat.pos_iff_ne_zero.mp hA, Nat.pos_iff_ne_zero.mp hB]
    constructor <;> omega
  simp only [square_forward, promote_id4, List.getD_cons_succ, List.getD_cons_zero]
  rw [if_neg (by simp), if_neg (by simp), if_neg hne, if_pos trivial, if_neg hnum,
    if_neg (by omega : ¬ (x < max y x)), if_pos (by omega : y < max y x), hD]

theorem sqfwd_crop_x (A B y x : ℕ) (g : ℕ → Val) (md : Metadata)
    (hy : 2 ≤ y) (hx : 2 ≤ x) (hyx : y < x) :
    square_forward ⟨[A, B, y, x], g⟩ md ("crop") = Except.ok (SqRes.pair
      (squeeze ⟨[A, B, y, sliceLen x (((x - y) / 2 : ℕ) : ℤ)
          ((((x - y) / 2 : ℕ) : ℤ) + (y : ℤ))],
        read3 x (((x - y) / 2 : ℕ) : ℤ) ((((x - y) / 2 : ℕ) : ℤ) + (y : ℤ)) g⟩)
      { md with
        x1 := md.x1 + (((x - y) / 2 : ℕ) : ℚ) * md.xpixelsize,
        x2 := md.x2 - (((x - y) / 2 : ℕ) : ℚ) * md.xpixelsize,
        orig_domain := some (y, x), square_method := some ("crop") }) := by
  have hD : min y x = y := Nat.min_eq_left (Nat.le_of_lt hyx)
  have hne : ¬ (y = x) := by omega
  simp only [square_forward, promote_id4, List.getD_cons_succ, List.getD_cons_zero]
  rw [if_neg (by simp), if_neg (by simp), if_neg hne, if_neg (by decide),
    if_pos trivial, if_pos (by omega : min y x < x), hD]

theorem sqfwd_crop_y (A B y x : ℕ) (g : ℕ → Val) (md : Metadata)
    (hy : 2 ≤ y) (hx : 2 ≤ x) (hxy : x < y) :
    square_forward ⟨[A, B, y, x], g⟩ md ("crop") = Except.ok (SqRes.pair
      (squeeze ⟨[A, B, sliceLen y (((y - x) / 2 : ℕ) : ℤ)
          ((((y - x) / 2 : ℕ) : ℤ) + (x : ℤ)), x],
        read2 y x (((y - x) / 2 : ℕ) : ℤ) ((((y - x) / 2 : ℕ) : ℤ) + (x : ℤ)) g⟩)
      { md with
        y1 := md.y1 + (((y - x) / 2 : ℕ) : ℚ) * md.ypixelsize,
        y2 := md.y2 - (((y - x) / 2 : ℕ) : ℚ) * md.ypixelsize,
        orig_domain := some (y, x), square_method := some ("crop") }) := by
  have hD : min y x = x := Nat.min_eq_right (Nat.le_of_lt hxy)
  have hne : ¬ (y = x) := by omega
  simp only [square_forward, promote_id4, List.getD_cons_succ, List.getD_cons_zero]
  rw [if_neg (by simp), if_neg (by simp), if_neg hne, if_neg (by decide),
    if_pos trivial, if_neg (by omega : ¬ (min y x < x)),
    if_pos (by omega : min y x < y), hD]

theorem sqinv_pad_x (F : NDArray) (A2 B2 y x : ℕ) (f : ℕ → Val) (md : Metadata)
    (hlen2 : 2 ≤ F.shape.length) (hlen4 : F.shape.length ≤ 4)
    (hpro : promote F = ⟨[A2, B2, y, y], f⟩)
    (hm : md.square_method = some ("pad")) (ho : md.orig_domain = some (y, x))
    (hxy : x < y) :
    square_inverse F md = Except.ok (SqRes.pair
      (squeeze ⟨[A2, B2, y, sliceLen y (((y - x) / 2 : ℕ) : ℤ)
          ((((y - x) / 2 : ℕ) : ℤ) + (x : ℤ))],
        read3 y (((y - x) / 2 : ℕ) : ℤ) ((((y - x) / 2 : ℕ) : ℤ) + (x : ℤ)) f⟩)
      { md with
        square_method := none, orig_domain := none,
        x1 := md.x1 + (((y - x) / 2 : ℕ) : ℚ) * md.xpixelsize,
        x2 := md.x2 - (((y - x) / 2 : ℕ) : ℚ) * md.xpixelsize }) := by
  simp only [square_inverse, hm, ho, hpro, List.getD_cons_succ, List.getD_cons_zero]
  rw [if_neg (by omega), if_neg (by omega),
    if_neg (by simp only [true_and]; omega : ¬ (True ∧ y = x)), if_pos trivial,
    if_pos trivial, tdiv_sub_cast y x (by omega)]
  simp only [Int.cast_natCast]

theorem sqinv_pad_y (F : NDArray) (A2 B2 y x : ℕ) (f : ℕ → Val) (md : Metadata)
    (hlen2 : 2 ≤ F.shape.length) (hlen4 : F.shape.length ≤ 4)
    (hpro : promote F = ⟨[A2, B2, x, x], f⟩)
    (hm : md.square_method = some ("pad")) (ho : md.orig_domain = some (y, x))
    (hyx : y < x) :
    square_inverse F md = Except.ok (SqRes.pair
      (squeeze ⟨[A2, B2, sliceLen x (((x - y) / 2 : ℕ) : ℤ)
          ((((x - y) / 2 : ℕ) : ℤ) + (y : ℤ)), x],
        read2 x x (((x - y) / 2 : ℕ) : ℤ) ((((x - y) / 2 : ℕ) : ℤ) + (y : ℤ)) f⟩)
      { md with
        square_method := none, orig_domain := none,
        y1 := md.y1 + (((x - y) / 2 : ℕ) : ℚ) * md.ypixelsize,
        y2 := md.y2 - (((x - y) / 2 : ℕ) : ℚ) * md.ypixelsize }) := by
  simp only [square_inverse, hm, ho, hpro, List.getD_cons_succ, List.getD_cons_zero]
  rw [if_neg (by omega), if_neg (by omega),
    if_neg (by simp only [and_true]; omega : ¬ (x = y ∧ True)), if_pos trivial,
    if_neg (by omega : ¬ (x = y)), if_pos trivial,
    tdiv_sub_cast x y (by omega)]
  simp only [Int.cast_natCast]

theorem sqinv_crop_x (F : NDArray) (A2 B2 y x : ℕ) (f : ℕ → Val) (md : Metadata)
    (hlen2 : 2 ≤ F.shape.length) (hlen4 : F.shape.length ≤ 4)
    (hpro : promote F = ⟨[A2, B2, y, y], f⟩)
    (hm : md.square_method = some ("crop")) (ho : md.orig_domain = some (y, x))
    (hyx : y < x) :
    square_inverse F md = Except.ok (SqRes.pair
      (squeeze ⟨[A2, B2, y, x],
        write3 x (((x - y) / 2 : ℕ) : ℤ) ((((x - y) / 2 : ℕ) : ℤ) + (y : ℤ))
          (fun _ => Val.num 0) f⟩)
      { md with
        square_method := none, orig_domain := none,
        x1 := md.x1 - (((x - y) / 2 : ℕ) : ℚ) * md.xpixelsize,
        x2 := md.x2 + (((x - y) / 2 : ℕ) : ℚ) * md.xpixelsize }) := by
  simp only [square_inverse, hm, ho, hpro, List.getD_cons_succ, List.getD_cons_zero]
  rw [if_neg (by omega), if_neg (by omega),
    if_neg (by simp only [true_and]; omega : ¬ (True ∧ y = x)), if_neg (by decide),
    if_pos trivial, if_pos trivial, tdiv_sub_cast x y (by omega)]
  simp only [Int.cast_natCast]

theorem sqinv_crop_y (F : NDArray) (A2 B2 y x : ℕ) (f : ℕ → Val) (md : Metadata)
    (hlen2 : 2 ≤ F.shape.length) (hlen4 : F.shape.length ≤ 4)
    (hpro : promote F = ⟨[A2, B2, x, x], f⟩)
    (hm : md.square_method = some ("crop")) (ho : md.orig_domain = some (y, x))
    (hxy : x < y) :
    square_inverse F md = Except.ok (SqRes.pair
      (squeeze ⟨[A2, B2, y, x],
        write2 y x (((y - x) / 2 : ℕ) : ℤ) ((((y - x) / 2 : ℕ) : ℤ) + (x : ℤ))
          (fun _ => Val.num 0) f⟩)
      { md with
        square_method := none, orig_domain := none,
        y1 := md.y1 - (((y - x) / 2 : ℕ) : ℚ) * md.ypixelsize,
        y2 := md.y2 + (((y - x) / 2 : ℕ) : ℚ) * md.ypixelsize }) := by
  simp only [square_inverse, hm, ho, hpro, List.getD_cons_succ, List.getD_cons_zero]
  rw [if_neg (by omega), if_neg (by omega),
    if_neg (by simp only [and_true]; omega : ¬ (x = y ∧ True)), if_neg (by decide),
    if_pos trivial, if_neg (by omega : ¬ (x = y)), if_pos trivial,
    tdiv_sub_cast y x (by omega)]
  simp only [Int.cast_natCast]

theorem square_domain_false (R : NDArray) (md : Metadata) (m : String) :
    square_domain R md m false = square_forward R md m := by
  simp [square_domain]

theorem square_domain_true (R : NDArray) (md : Metadata) (m : String) :
    square_domain R md m true = square_inverse R md := by
  simp [square_domain]

theorem promote_length (R : NDArray) (h2 : 2 ≤ R.shape.length)
    (h4 : R.shape.length ≤ 4) : (promote R).shape.length = 4 := by
  unfold promote
  by_cases e2 : R.shape.length = 2
  · rw [if_pos e2]
    simp [e2]
  · rw [if_neg e2]
    by_cases e3 : R.shape.length = 3
    · rw [if_pos e3]
      simp [e3]
    · rw [if_neg e3]
      omega

theorem promote_promote (R : NDArray) : promote (promote R) = promote R := by
  unfold promote
  by_cases e2 : R.shape.length = 2
  · rw [if_pos e2]
    simp [e2]
  · rw [if_neg e2]
    by_cases e3 : R.shape.length = 3
    · rw [if_pos e3]
      simp [e3]
    · rw [if_neg e3, if_neg e2, if_neg e3]

theorem square_forward_promote (R : NDArray) (md : Metadata) (m : String)
    (h2 : 2 ≤ R.shape.length) (h4 : R.shape.length ≤ 4) :
    square_forward R md m = square_forward (promote R) md m := by
  have hp := promote_length R h2 h4
  have n1 : ¬ R.shape.length < 2 := by omega
  have n2 : ¬ 4 < R.shape.length := by omega
  have n3 : ¬ (promote R).shape.length < 2 := by omega
  have n4 : ¬ 4 < (promote R).shape.length := by omega
  unfold square_forward
  rw [if_neg n1, if_neg n2, if_neg n3, if_neg n4, promote_promote]

theorem roundTrip_promote (R : NDArray) (md : Metadata) (m : String)
    (h2 : 2 ≤ R.shape.length) (h4 : R.shape.length ≤ 4) :
    roundTrip R md m = roundTrip (promote R) md m := by
  simp only [roundTrip, square_domain_false]
  rw [square_forward_promote R md m h2 h4]

theorem roundTrip_eval (R : NDArray) (md : Metadata) (m : String) (F1 : NDArray)
    (md1 : Metadata) (res : Except String SqRes)
    (hfwd : square_forward R md m = Except.ok (SqRes.pair F1 md1))
    (hinv : square_inverse F1 md1 = res) :
    roundTrip R md m = sdField res := by
  simp only [roundTrip, square_domain_false, square_domain_true, hfwd, hinv]

theorem pad_rt4 (A B y x : ℕ) (g : ℕ → Val) (md : Metadata)
    (hA : 0 < A) (hB : 0 < B) (hy : 2 ≤ y) (hx : 2 ≤ x) (hyx : y ≠ x) :
    (roundTrip ⟨[A, B, y, x], g⟩ md ("pad")).isSome = true ∧
    lastTwo (optShape (roundTrip ⟨[A, B, y, x], g⟩ md ("pad"))) = [y, x] ∧
    (optShape (roundTrip ⟨[A, B, y, x], g⟩ md ("pad"))).prod = A * B * y * x ∧
    ∀ lin, optF (roundTrip ⟨[A, B, y, x], g⟩ md ("pad")) lin = g lin := by
  rcases Nat.lt_or_ge x y with hlt | hge
  · have hfwd := sqfwd_pad_x A B y x g md hA hB hy hx hlt
    obtain ⟨A2, B2, hAB, hl2, hl4, hpro⟩ :=
      promote_squeeze4 A B y y
        (write3 y (((y - x) / 2 : ℕ) : ℤ) ((((y - x) / 2 : ℕ) : ℤ) + (x : ℤ))
          (fun _ => npMin ⟨[A, B, y, x], g⟩) g) (by omega) (by omega)
    have hinv := sqinv_pad_x _ A2 B2 y x _
      { md with
        x1 := md.x1 - (((y - x) / 2 : ℕ) : ℚ) * md.xpixelsize,
        x2 := md.x2 + (((y - x) / 2 : ℕ) : ℚ) * md.xpixelsize,
        orig_domain := some (y, x), square_method := some ("pad") }
      hl2 hl4 hpro rfl rfl hlt
    have hrt := roundTrip_eval _ _ _ _ _ _ hfwd hinv
    have hsl : sliceLen y (((y - x) / 2 : ℕ) : ℤ)
        ((((y - x) / 2 : ℕ) : ℤ) + (x : ℤ)) = x :=
      sliceLen_eval y ((y - x) / 2) x (by omega)
    rw [hrt]
    simp only [sdField, optShape, optF, Option.isSome, hsl]
    refine ⟨trivial, ?_, ?_, ?_⟩
    · exact (squeeze4_out A2 B2 y x _ hy hx).1
    · rw [(squeeze4_out A2 B2 y x _ hy hx).2, hAB]
    · intro lin
      exact comp_pad_x y x ((y - x) / 2) _ g (by omega) (by omega) lin
  · have hlt : y < x := by omega
    have hfwd := sqfwd_pad_y A B y x g md hA hB hy hx hlt
    obtain ⟨A2, B2, hAB, hl2, hl4, hpro⟩ :=
      promote_squeeze4 A B x x
        (write2 x x (((x - y) / 2 : ℕ) : ℤ) ((((x - y) / 2 : ℕ) : ℤ) + (y : ℤ))
          (fun _ => npMin ⟨[A, B, y, x], g⟩) g) (by omega) (by omega)
    have hinv := sqinv_pad_y _ A2 B2 y x _
      { md with
        y1 := md.y1 - (((x - y) / 2 : ℕ) : ℚ) * md.ypixelsize,
        y2 := md.y2 + (((x - y) / 2 : ℕ) : ℚ) * md.ypixelsize,
        orig_domain := some (y, x), square_method := some ("pad") }
      hl2 hl4 hpro rfl rfl hlt
    have hrt := roundTrip_eval _ _ _ _ _ _ hfwd hinv
    have hsl : sliceLen x (((x - y) / 2 : ℕ) : ℤ)
        ((((x - y) / 2 : ℕ) : ℤ) + (y : ℤ)) = y :=
      sliceLen_eval x ((x - y) / 2) y (by omega)
    rw [hrt]
    simp only [sdField, optShape, optF, Option.isSome, hsl]
    refine ⟨trivial, ?_, ?_, ?_⟩
    · exact (squeeze4_out A2 B2 y x _ hy hx).1
    · rw [(squeeze4_out A2 B2 y x _ hy hx).2, hAB]
    · intro lin
      exact comp_pad_y x y x ((x - y) / 2) _ g (by omega) (by omega) (by omega) lin

theorem crop_rt4 (A B y x : ℕ) (g : ℕ → Val) (md : Metadata)
    (hy : 2 ≤ y) (hx : 2 ≤ x) (hyx : y ≠ x) :
    (roundTrip ⟨[A, B, y, x], g⟩ md ("crop")).isSome = true ∧
    lastTwo (optShape (roundTrip ⟨[A, B, y, x], g⟩ md ("crop"))) = [y, x] ∧
    (optShape (roundTrip ⟨[A, B, y, x], g⟩ md ("crop"))).prod = A * B * y * x ∧
    ∀ lin, optF (roundTrip ⟨[A, B, y, x], g⟩ md ("crop")) lin =
      if (y - min y x) / 2 ≤ lin / x % y ∧
         lin / x % y < (y - min y x) / 2 + min y x ∧
         (x - min y x) / 2 ≤ lin % x ∧ lin % x < (x - min y x) / 2 + min y x
      then g lin else Val.num 0 := by
  rcases Nat.lt_or_ge y x with hlt | hge
  · have hfwd := sqfwd_crop_x A B y x g md hy hx hlt
    have hslf : sliceLen x (((x - y) / 2 : ℕ) : ℤ)
        ((((x - y) / 2 : ℕ) : ℤ) + (y : ℤ)) = y :=
      sliceLen_eval x ((x - y) / 2) y (by omega)
    rw [hslf] at hfwd
    obtain ⟨A2, B2, hAB, hl2, hl4, hpro⟩ :=
      promote_squeeze4 A B y y
        (read3 x (((x - y) / 2 : ℕ) : ℤ) ((((x - y) / 2 : ℕ) : ℤ) + (y : ℤ)) g)
        (by omega) (by omega)
    have hinv := sqinv_crop_x _ A2 B2 y x _
      { md with
        x1 := md.x1 + (((x - y) / 2 : ℕ) : ℚ) * md.xpixelsize,
        x2 := md.x2 - (((x - y) / 2 : ℕ) : ℚ) * md.xpixelsize,
        orig_domain := some (y, x), square_method := some ("crop") }
      hl2 hl4 hpro rfl rfl hlt
    have hrt := roundTrip_eval _ _ _ _ _ _ hfwd hinv
    rw [hrt]
    simp only [sdField, optShape, optF, Option.isSome]
    refine ⟨trivial, ?_, ?_, ?_⟩
    · exact (squeeze4_out A2 B2 y x _ hy hx).1
    · rw [(squeeze4_out A2 B2 y x _ hy hx).2, hAB]
    · intro lin
      simp only [squeeze]
      rw [comp_crop_x x y ((x - y) / 2) g (by omega) (by omega) lin,
        Nat.min_eq_left (Nat.le_of_lt hlt)]
      have hm2 : lin / x % y < y := Nat.mod_lt _ (by omega)
      have hiff : ((x - y) / 2 ≤ lin % x ∧ lin % x < (x - y) / 2 + y) ↔
          ((y - y) / 2 ≤ lin / x % y ∧ lin / x % y < (y - y) / 2 + y ∧
           (x - y) / 2 ≤ lin % x ∧ lin % x < (x - y) / 2 + y) := by
        constructor
        · intro h
          exact ⟨by omega, by omega, h.1, h.2⟩
        · intro h
          exact ⟨h.2.2.1, h.2.2.2⟩
      exact if_congr hiff rfl rfl
  · have hlt : x < y := by omega
    have hfwd := sqfwd_crop_y A B y x g md hy hx hlt
    have hslf : sliceLen y (((y - x) / 2 : ℕ) : ℤ)
        ((((y - x) / 2 : ℕ) : ℤ) + (x : ℤ)) = x :=
      sliceLen_eval y ((y - x) / 2) x (by omega)
    rw [hslf] at hfwd
    obtain ⟨A2, B2, hAB, hl2, hl4, hpro⟩ :=
      promote_squeeze4 A B x x
        (read2 y x (((y - x) / 2 : ℕ) : ℤ) ((((y - x) / 2 : ℕ) : ℤ) + (x : ℤ)) g)
        (by omega) (by omega)
    have hinv := sqinv_crop_y _ A2 B2 y x _
      { md with
        y1 := md.y1 + (((y - x) / 2 : ℕ) : ℚ) * md.ypixelsize,
        y2 := md.y2 - (((y - x) / 2 : ℕ) : ℚ) * md.ypixelsize,
        orig_domain := some (y, x), square_method := some ("crop") }
      hl2 hl4 hpro rfl rfl hlt
    have hrt := roundTrip_eval _ _ _ _ _ _ hfwd hinv
    rw [hrt]
    simp only [sdField, optShape, optF, Option.isSome]
    refine ⟨trivial, ?_, ?_, ?_⟩
    · exact (squeeze4_out A2 B2 y x _ hy hx).1
    · rw [(squeeze4_out A2 B2 y x _ hy hx).2, hAB]
    · intro lin
      simp only [squeeze]
      rw [comp_crop_y y x x ((y - x) / 2) g (by omega) (by omega) (by omega) lin,
        Nat.min_eq_right (Nat.le_of_lt hlt)]
      have hm3 : lin % x < x := Nat.mod_lt _ (by omega)
      have hiff : ((y - x) / 2 ≤ lin / x % y ∧ lin / x % y < (y - x) / 2 + x) ↔
          ((y - x) / 2 ≤ lin / x % y ∧ lin / x % y < (y - x) / 2 + x ∧
           (x - x) / 2 ≤ lin % x ∧ lin % x < (x - x) / 2 + x) := by
        constructor
        · intro h
          exact ⟨h.1, h.2, by omega, by omega⟩
        · intro h
          exact ⟨h.1, h.2.1⟩
      exact if_congr hiff rfl rfl

/-- C1: for a non-square field of rank 2, 3 or 4 with every extent positive
and both spatial extents at least 2, squaring with method `pad` and applying
the inverse on the result (carrying forward the produced metadata) succeeds,
restores the spatial shape (the last two extents) and the total size, and
returns every original value unchanged at every flat position.  (Amended:
extent-1 spatial axes are dropped by the final `squeeze`, so the original
claim fails for them; zero extents make `np.min` raise on the padding
path.) -/
theorem c1_pad_roundtrip (s : List ℕ) (g : ℕ → Val) (md : Metadata)
    (hrank : s.length = 2 ∨ s.length = 3 ∨ s.length = 4)
    (hpos : ∀ d ∈ s, 0 < d)
    (hsp : ∀ d ∈ lastTwo s, 2 ≤ d)
    (hns : s.getD (s.length - 2) 0 ≠ s.getD (s.length - 1) 0) :
    (roundTrip ⟨s, g⟩ md ("pad")).isSome = true ∧
    lastTwo (optShape (roundTrip ⟨s, g⟩ md ("pad"))) = lastTwo s ∧
    (optShape (roundTrip ⟨s, g⟩ md ("pad"))).prod = s.prod ∧
    ∀ lin, optF (roundTrip ⟨s, g⟩ md ("pad")) lin = g lin := by
  rcases s with _ | ⟨d0, _ | ⟨d1, _ | ⟨d2, _ | ⟨d3, _ | ⟨d4, rest⟩⟩⟩⟩⟩
  · simp at hrank
  · simp at hrank
  · have hy := hsp d0 (by simp [lastTwo])
    have hx := hsp d1 (by simp [lastTwo])
    have hne : d0 ≠ d1 := by simpa using hns
    have hpr : roundTrip ⟨[d0, d1], g⟩ md ("pad") =
        roundTrip ⟨[1, 1, d0, d1], g⟩ md ("pad") := by
      rw [roundTrip_promote _ md ("pad") (by simp) (by simp)]
      simp [promote]
    obtain ⟨h1, h2, h3, h4⟩ := pad_rt4 1 1 d0 d1 g md (by omega) (by omega) hy hx hne
    rw [hpr]
    refine ⟨h1, ?_, ?_, h4⟩
    · rw [h2]
      simp [lastTwo]
    · rw [h3]
      simp [List.prod_cons]
  · have hy := hsp d1 (by simp [lastTwo])
    have hx := hsp d2 (by simp [lastTwo])
    have hne : d1 ≠ d2 := by simpa using hns
    have hB := hpos d0 (by simp)
    have hpr : roundTrip ⟨[d0, d1, d2], g⟩ md ("pad") =
        roundTrip ⟨[1, d0, d1, d2], g⟩ md ("pad") := by
      rw [roundTrip_promote _ md ("pad") (by simp) (by simp)]
      simp [promote]
    obtain ⟨h1, h2, h3, h4⟩ := pad_rt4 1 d0 d1 d2 g md (by omega) hB hy hx hne
    rw [hpr]
    refine ⟨h1, ?_, ?_, h4⟩
    · rw [h2]
      simp [lastTwo]
    · rw [h3]
      simp [List.prod_cons]
      ring
  · have hy := hsp d2 (by simp [lastTwo])
    have hx := hsp d3 (by simp [lastTwo])
    have hne : d2 ≠ d3 := by simpa using hns
    have hA := hpos d0 (by simp)
    have hB := hpos d1 (by simp)
    obtain ⟨h1, h2, h3, h4⟩ := pad_rt4 d0 d1 d2 d3 g md hA hB hy hx hne
    refine ⟨h1, ?_, ?_, h4⟩
    · rw [h2]
      simp [lastTwo]
    · rw [h3]
      simp [List.prod_cons]
      ring
  · simp at hrank

/-- C7: for a non-square field of rank 2, 3 or 4 whose two spatial extents
are at least 2, squaring with method `crop` and applying the inverse on the
result restores the spatial shape and total size; positions in the retained
central band (rows in `[(y-D)/2, (y-D)/2+D)` and columns in
`[(x-D)/2, (x-D)/2+D)` with `D = min y x`) hold the values that survived the
crop, and every previously cropped position holds zero, not the original
value.  (Amended: extent-1 spatial axes break the round trip, because the
squeezed intermediate loses them.) -/
theorem c7_crop_roundtrip (s : List ℕ) (g : ℕ → Val) (md : Metadata)
    (hrank : s.length = 2 ∨ s.length = 3 ∨ s.length = 4)
    (hsp : ∀ d ∈ lastTwo s, 2 ≤ d)
    (hns : s.getD (s.length - 2) 0 ≠ s.getD (s.length - 1) 0) :
    (roundTrip ⟨s, g⟩ md ("crop")).isSome = true ∧
    lastTwo (optShape (roundTrip ⟨s, g⟩ md ("crop"))) = lastTwo s ∧
    (optShape (roundTrip ⟨s, g⟩ md ("crop"))).prod = s.prod ∧
    ∀ lin, optF (roundTrip ⟨s, g⟩ md ("crop")) lin =
      (let y := s.getD (s.length - 2) 0
       let x := s.getD (s.length - 1) 0
       let D := min y x
       if (y - D) / 2 ≤ lin / x % y ∧ lin / x % y < (y - D) / 2 + D ∧
          (x - D) / 2 ≤ lin % x ∧ lin % x < (x - D) / 2 + D
       then g lin else Val.num 0) := by
  rcases s with _ | ⟨d0, _ | ⟨d1, _ | ⟨d2, _ | ⟨d3, _ | ⟨d4, rest⟩⟩⟩⟩⟩
  · simp at hrank
  · simp at hrank
  · have hy := hsp d0 (by simp [lastTwo])
    have hx := hsp d1 (by simp [lastTwo])
    have hne : d0 ≠ d1 := by simpa using hns
    have hpr : roundTrip ⟨[d0, d1], g⟩ md ("crop") =
        roundTrip ⟨[1, 1, d0, d1], g⟩ md ("crop") := by
      rw [roundTrip_promote _ md ("crop") (by simp) (by simp)]
      simp [promote]
    obtain ⟨h1, h2, h3, h4⟩ := crop_rt4 1 1 d0 d1 g md hy hx hne
    rw [hpr]
    refine ⟨h1, ?_, ?_, h4⟩
    · rw [h2]
      simp [lastTwo]
    · rw [h3]
      simp [List.prod_cons]
  · have hy := hsp d1 (by simp [lastTwo])
    have hx := hsp d2 (by simp [lastTwo])
    have hne : d1 ≠ d2 := by simpa using hns
    have hpr : roundTrip ⟨[d0, d1, d2], g⟩ md ("crop") =
        roundTrip ⟨[1, d0, d1, d2], g⟩ md ("crop") := by
      rw [roundTrip_promote _ md ("crop") (by simp) (by simp)]
      simp [promote]
    obtain ⟨h1, h2, h3, h4⟩ := crop_rt4 1 d0 d1 d2 g md hy hx hne
    rw [hpr]
    refine ⟨h1, ?_, ?_, h4⟩
    · rw [h2]
      simp [lastTwo]
    · rw [h3]
      simp [List.prod_cons]
      ring
  · have hy := hsp d2 (by simp [lastTwo])
    have hx := hsp d3 (by simp [lastTwo])
    have hne : d2 ≠ d3 := by simpa using hns
    obtain ⟨h1, h2, h3, h4⟩ := crop_rt4 d0 d1 d2 d3 g md hy hx hne
    refine ⟨h1, ?_, ?_, h4⟩
    · rw [h2]
      simp [lastTwo]
    · rw [h3]
      simp [List.prod_cons]
      ring
  · simp at hrank

theorem squeeze_no_ones (A : NDArray) :
    (squeeze A).shape.all (fun d => d != 1) = true := by
  simp only [squeeze, List.all_eq_true]
  intro d hd
  simpa using (List.mem_filter.mp hd).2

/-- C9: every `square_domain` success (either direction, either return
form) and every `adjust_domain` success whose limits are not both `None`
returns an array with every extent-1 axis removed, so rank is not preserved
at the public interface.  (Amended: the `adjust_domain` no-op path with both
limits `None` returns the input array unsqueezed.) -/
theorem c9_squeezed_outputs (R : NDArray) (md : Metadata) (m : String)
    (inv : Bool) (xl yl : Option (ℚ × ℚ)) (hlim : ¬ (xl = none ∧ yl = none)) :
    (optShape (sdField (square_domain R md m inv))).all (fun d => d != 1) = true ∧
    (optShape (adField (adjust_domain R md xl yl))).all (fun d => d != 1) = true := by
  constructor
  · cases inv
    · rw [square_domain_false]
      unfold square_forward
      dsimp only
      repeat' split
      all_goals simp only [sdField, optShape]
      all_goals first | rfl | exact squeeze_no_ones _
    · rw [square_domain_true]
      unfold square_inverse
      dsimp only
      repeat' split
      all_goals simp only [sdField, optShape]
      all_goals first | rfl | exact squeeze_no_ones _
  · unfold adjust_domain
    rw [if_neg hlim]
    dsimp only
    repeat' split
    all_goals simp only [adField, optShape]
    all_goals first | rfl | exact squeeze_no_ones _

/-- Witness for C1: a concrete `2x3` field padded to `3x3` and inverted;
shape, size and all values are restored. -/
theorem c1_pad_roundtrip_witness :
    (([2, 3] : List ℕ).length = 2 ∨ ([2, 3] : List ℕ).length = 3 ∨
      ([2, 3] : List ℕ).length = 4) ∧
    (∀ d ∈ ([2, 3] : List ℕ), 0 < d) ∧
    (∀ d ∈ lastTwo [2, 3], 2 ≤ d) ∧
    ([2, 3].getD (([2, 3] : List ℕ).length - 2) 0 ≠
      [2, 3].getD (([2, 3] : List ℕ).length - 1) 0) ∧
    ((roundTrip ⟨[2, 3], fun _ => Val.num 7⟩ md0 ("pad")).isSome = true ∧
     lastTwo (optShape (roundTrip ⟨[2, 3], fun _ => Val.num 7⟩ md0 ("pad"))) =
       lastTwo [2, 3] ∧
     (optShape (roundTrip ⟨[2, 3], fun _ => Val.num 7⟩ md0 ("pad"))).prod =
       ([2, 3] : List ℕ).prod ∧
     ∀ lin, optF (roundTrip ⟨[2, 3], fun _ => Val.num 7⟩ md0 ("pad")) lin =
       (fun _ => Val.num 7) lin) :=
  ⟨by decide, by decide, by decide, by decide,
   c1_pad_roundtrip [2, 3] (fun _ => Val.num 7) md0 (by decide) (by decide)
     (by decide) (by decide)⟩

/-- Counterexample to the unamended C1: the non-square rank-2 field of shape
`(1, 2)` comes back from the pad round trip with shape `[2]` — the final
`squeeze` drops the extent-1 spatial axis, so the spatial shape is not
restored exactly. -/
theorem c1_counterexample :
    optShape (roundTrip ⟨[1, 2], fun _ => Val.num 5⟩ md0 ("pad")) = [2] ∧
    lastTwo [1, 2] = [1, 2] := ⟨rfl, rfl⟩

/-- Witness for C7: a concrete `2x3` field cropped to `2x2` and inverted;
the shape returns, the central columns survive and the cropped column is
zero-filled. -/
theorem c7_crop_roundtrip_witness :
    (([2, 3] : List ℕ).length = 2 ∨ ([2, 3] : List ℕ).length = 3 ∨
      ([2, 3] : List ℕ).length = 4) ∧
    (∀ d ∈ lastTwo [2, 3], 2 ≤ d) ∧
    ([2, 3].getD (([2, 3] : List ℕ).length - 2) 0 ≠
      [2, 3].getD (([2, 3] : List ℕ).length - 1) 0) ∧
    ((roundTrip ⟨[2, 3], fun _ => Val.num 4⟩ md0 ("crop")).isSome = true ∧
     lastTwo (optShape (roundTrip ⟨[2, 3], fun _ => Val.num 4⟩ md0 ("crop"))) =
       lastTwo [2, 3] ∧
     (optShape (roundTrip ⟨[2, 3], fun _ => Val.num 4⟩ md0 ("crop"))).prod =
       ([2, 3] : List ℕ).prod ∧
     ∀ lin, optF (roundTrip ⟨[2, 3], fun _ => Val.num 4⟩ md0 ("crop")) lin =
       (let y := [2, 3].getD (([2, 3] : List ℕ).length - 2) 0
        let x := [2, 3].getD (([2, 3] : List ℕ).length - 1) 0
        let D := min y x
        if (y - D) / 2 ≤ lin / x % y ∧ lin / x % y < (y - D) / 2 + D ∧
           (x - D) / 2 ≤ lin % x ∧ lin % x < (x - D) / 2 + D
        then (fun _ => Val.num 4) lin else Val.num 0)) :=
  ⟨by decide, by decide, by decide,
   c7_crop_roundtrip [2, 3] (fun _ => Val.num 4) md0 (by decide) (by decide)
     (by decide)⟩

/-- Counterexample to the unamended C7: the non-square rank-2 field of shape
`(1, 2)` crops to a `1x1` square whose `squeeze` is a scalar, and the
inverse call then fails its rank check, so the round trip does not restore
the shape at all. -/
theorem c7_counterexample :
    (roundTrip ⟨[1, 2], fun _ => Val.num 6⟩ md0 ("crop")).isSome = false := rfl

/-- C2: contrary to the `(Field, Metadata) -> (Field, Metadata)` contract,
the already-square forward path and the shape-already-restored inverse path
of `square_domain` return only the bare squeezed field with no metadata
record (`dimension.py` lines 321 and 386): both calls here succeed with the
bare return form. -/
theorem c2_bare_return :
    sdBare (square_domain ⟨[2, 2], fun _ => Val.num 1⟩ md0 ("pad") false) = true ∧
    sdBare (square_domain ⟨[2, 3], fun _ => Val.num 1⟩
      { md0 with square_method := some ("crop"), orig_domain := some (2, 3) }
      ("crop") true) = true := ⟨rfl, rfl⟩

/-- Witness for C9: a `2x2` pad call and a `2x2` domain adjustment with an
x-limit; both outputs carry no extent-1 axis. -/
theorem c9_squeezed_outputs_witness :
    ¬ ((some ((0 : ℚ), (2 : ℚ)) : Option (ℚ × ℚ)) = none ∧
       (none : Option (ℚ × ℚ)) = none) ∧
    ((optShape (sdField (square_domain ⟨[2, 2], fun _ => Val.num 1⟩ md0
        ("pad") false))).all (fun d => d != 1) = true ∧
     (optShape (adField (adjust_domain ⟨[2, 2], fun _ => Val.num 1⟩ md0
        (some (0, 2)) none))).all (fun d => d != 1) = true) :=
  ⟨by decide,
   c9_squeezed_outputs ⟨[2, 2], fun _ => Val.num 1⟩ md0 ("pad") false
     (some (0, 2)) none (by decide)⟩

/-- Counterexample to the unamended C9: with both limits `None`,
`adjust_domain` returns the `(1, 2, 2)` input unchanged, keeping its
extent-1 leading axis. -/
theorem c9_counterexample :
    adjust_domain ⟨[1, 2, 2], fun _ => Val.num 3⟩ md0 none none =
      Except.ok (⟨[1, 2, 2], fun _ => Val.num 3⟩, md0) ∧
    ([1, 2, 2] : List ℕ).all (fun d => d != 1) = false := ⟨rfl, rfl⟩

/-- Evaluation of `adjust_domain` on a `4x4` field over the `[0,4]x[0,4]`
domain of `md0` with the identity limits `xlim = ylim = (0, 4)`: the index
arrays are all `[0, 1, 2, 3]`, and the exclusive `idx[-1]` upper bounds of
the assignment copy only rows and columns `0..2`. -/
theorem adjust_md0_eval (g : ℕ → Val) :
    adjust_domain ⟨[4, 4], g⟩ md0 (some (0, 4)) (some (0, 4)) =
      Except.ok
        (squeeze ⟨[1, 1, 4, 4], fun lin =>
          if 0 ≤ lin / 4 % 4 ∧ lin / 4 % 4 < 3 ∧ 0 ≤ lin % 4 ∧ lin % 4 < 3 then
            g (lin / (4 * 4) * (4 * 4) + (0 + (lin / 4 % 4 - 0)) * 4 +
              (0 + (lin % 4 - 0)))
          else Val.num 0⟩,
         md0) := by
  have h0 : ¬ ((some ((0 : ℚ), (4 : ℚ)) : Option (ℚ × ℚ)) = none ∧
      (some ((0 : ℚ), (4 : ℚ)) : Option (ℚ × ℚ)) = none) := by decide
  have hlin : (linspace (0 : ℚ) (4 - 1) 4).map (fun v => v + 1 / 2) =
      [1 / 2, 3 / 2, 5 / 2, 7 / 2] := by
    norm_num [linspace, List.range_succ]
  have hwh : whereIdx (fun v => decide (v < (4 : ℚ)) && decide ((0 : ℚ) < v))
      [1 / 2, 3 / 2, 5 / 2, 7 / 2] = [0, 1, 2, 3] := by
    norm_num [whereIdx, List.range_succ, List.filter_cons, List.getD_cons_zero,
      List.getD_cons_succ]
  unfold adjust_domain
  rw [if_neg h0]
  rw [show promote ⟨[4, 4], g⟩ = ⟨[1, 1, 4, 4], g⟩ from by simp [promote]]
  simp only [md0, Option.getD, List.getD_cons_zero, List.getD_cons_succ]
  rw [if_neg (show ¬ (([4, 4] : List ℕ).length < 2) from by norm_num),
      if_neg (show ¬ (4 < ([4, 4] : List ℕ).length) from by norm_num),
      if_neg (show ¬ ((1 : ℚ) = 0 ∨ (1 : ℚ) = 0) from by norm_num)]
  simp only [show max (0 : ℚ) 4 = 4 from by norm_num,
    show min (0 : ℚ) 4 = 0 from by norm_num]
  simp only [show ((4 : ℚ) - 0) / 1 = 4 from by norm_num]
  simp only [show intTrunc (4 : ℚ) = (4 : ℤ) from by norm_num [intTrunc]]
  simp only [show Int.toNat (4 : ℤ) = 4 from rfl]
  rw [if_neg (show ¬ ((4 : ℤ) < 0 ∨ (4 : ℤ) < 0) from by decide)]
  rw [hlin, hwh]
  rw [show ([0, 1, 2, 3] : List ℕ).head? = some 0 from rfl,
      show ([0, 1, 2, 3] : List ℕ).getLast? = some 3 from rfl]
  dsimp only
  rw [if_neg (show ¬ ((3 : ℕ) - 0 ≠ 3 - 0 ∨ (3 : ℕ) - 0 ≠ 3 - 0) from by decide)]

/-- C8: requesting the unchanged limits `xlim = ylim = (0, 4)` on a `4x4`
field whose bounds are already `[0,4]x[0,4]` must copy every cell (each
pixel centre lies inside the old bounds), and the shape is indeed preserved
and interior cells such as flat position 10 are copied — but the cell at
row 3, column 3 (flat position 15) receives the `zerovalue` 0 instead of
the input value 15: the slice `idx_y_[0]:idx_y_[-1]` at `dimension.py` line
268 excludes the last matched row and column. -/
theorem c8_boundary_dropped :
    optShape (adField (adjust_domain ⟨[4, 4], fun lin => Val.num lin⟩ md0
      (some (0, 4)) (some (0, 4)))) = [4, 4] ∧
    optF (adField (adjust_domain ⟨[4, 4], fun lin => Val.num lin⟩ md0
      (some (0, 4)) (some (0, 4)))) 10 = Val.num 10 ∧
    optF (adField (adjust_domain ⟨[4, 4], fun lin => Val.num lin⟩ md0
      (some (0, 4)) (some (0, 4)))) 15 = Val.num 0 ∧
    (⟨[4, 4], fun lin => Val.num lin⟩ : NDArray).f 15 = Val.num 15 ∧
    Val.num (15 : ℚ) ≠ Val.num 0 := by
  rw [adjust_md0_eval]
  refine ⟨rfl, ?_, ?_, rfl, by decide⟩
  · rfl
  · rfl
